import Mathlib

/-!
# Dialogue orchestration engine of the math tutor

A shallow embedding of `src/backend/lib/orchestrator.js`,
`src/backend/lib/validation.js`, `src/backend/lib/openai.js` and
`src/lib/orchestrator.js`.

* A JavaScript string is a list of characters; its `length` is counted in
  UTF-16 code units.
* Regular expressions are a small syntax tree mirroring the regex literals of
  the source, with a backtracking matcher (`RE.run`) and a relational
  semantics (`RE.Matches`) proved equivalent.
* A turn of the history is a user turn with plain or mixed content, or an
  assistant or system turn with a string, the shape laid down by the data
  model; a string that may be null is an `Option`, and it is truthy when it
  is neither null nor empty.
* The completion provider and the environment of `getOpenAIClient` are
  parameters of `generateResponse`; a rejected promise is `Except.error`.
* `JSON.parse` is a parameter of `validateAnswer`, so that what is proved of
  it holds for every parser; `jsonParse` is a model of it for the concrete
  instances. A number is kept as its decimal literal.
* Logging (`console.warn`, `console.error`) is left out.
-/

namespace Tutor

/-! ## Strings -/

/-- A JavaScript string, as the list of its characters. -/
abbrev JSString := List Char

/-- Number of UTF-16 code units of a character. -/
def unitCount (c : Char) : Nat := if c.toNat < 65536 then 1 else 2

/-- The `length` property of a string: its number of UTF-16 code units. -/
def jsLength : JSString → Nat
  | [] => 0
  | c :: s => unitCount c + jsLength s

/-- White space and line terminators of ECMAScript: what the regex class
`\s` matches and what `String.prototype.trim` strips. -/
def isJsSpace (c : Char) : Bool :=
  let n := c.toNat
  n == 9 || n == 10 || n == 11 || n == 12 || n == 13 || n == 32 || n == 160 ||
  n == 5760 || (8192 ≤ n && n ≤ 8202) || n == 8232 || n == 8233 || n == 8239 ||
  n == 8287 || n == 12288 || n == 65279

/-- The method `String.prototype.trim`. -/
def jsTrim (s : JSString) : JSString :=
  ((s.dropWhile isJsSpace).reverse.dropWhile isJsSpace).reverse

/-! ## Regular expressions -/

/-- Syntax of the regular expressions used by the source. -/
inductive RE where
  | eps : RE
  | bol : RE
  | eol : RE
  | cls (p : Char → Bool) : RE
  | seq (a b : RE) : RE
  | alt (a b : RE) : RE
  | star (a : RE) : RE

namespace RE

/-- Iteration of a matcher `f`: every round has to consume input, as in the
ECMAScript semantics, where an empty round of a `*` loop is rejected. -/
def iter (f : List Char → List (List Char)) : Nat → List Char → List (List Char)
  | 0, t => [t]
  | fuel + 1, t => t :: ((f t).filter (fun u => u.length < t.length)).flatMap (iter f fuel)

/-- The backtracking matcher: `run n r t` lists the remainders `u` of `t` at
which a match of `r` that starts at `t` can end; `n` is the length of the
whole input, so that `t` is at the start of the input iff `t.length = n`. -/
def run (n : Nat) : RE → List Char → List (List Char)
  | eps, t => [t]
  | bol, t => if t.length = n then [t] else []
  | eol, t => if t.isEmpty then [t] else []
  | cls p, t =>
    match t with
    | [] => []
    | c :: u => if p c then [u] else []
  | seq a b, t => (run n a t).flatMap (fun u => run n b u)
  | alt a b, t => run n a t ++ run n b t
  | star a, t => iter (fun u => run n a u) t.length t

/-- The method `RegExp.prototype.test`: some match starts at some position. -/
def test (r : RE) (s : JSString) : Bool :=
  s.tails.any (fun t => !(run s.length r t).isEmpty)

/-- Relational semantics: `Matches n r t u` when `r` matches from the
position with remainder `t` to the position with remainder `u`, in an input
of length `n`. -/
inductive Matches (n : Nat) : RE → List Char → List Char → Prop where
  | eps (t) : Matches n eps t t
  | bol (t) : t.length = n → Matches n bol t t
  | eol : Matches n eol [] []
  | cls (p c t) : p c = true → Matches n (cls p) (c :: t) t
  | seq {a b t u v} : Matches n a t u → Matches n b u v → Matches n (seq a b) t v
  | altL {a b t u} : Matches n a t u → Matches n (alt a b) t u
  | altR {a b t u} : Matches n b t u → Matches n (alt a b) t u
  | starNil {a} (t) : Matches n (star a) t t
  | starCons {a t u v} : Matches n a t u → Matches n (star a) u v → Matches n (star a) t v

/-- The pattern `a?`. -/
def opt (a : RE) : RE := alt a eps

/-- The pattern `a+`. -/
def plus (a : RE) : RE := seq a (star a)

/-- Concatenation of a list of patterns. -/
def cat : List RE → RE
  | [] => eps
  | a :: as => seq a (cat as)

/-- A character class under the flag `i`: a character matches when it, or
one of its two ASCII case variants, is in the class. (The patterns of the
source hold ASCII letters only, and canonicalisation never maps a non-ASCII
character to an ASCII one.) -/
def icls (p : Char → Bool) : RE :=
  cls (fun c => p c || p c.toLower || p c.toUpper)

/-- A literal character under the flag `i`. -/
def ichr (c : Char) : RE := icls (fun d => d == c)

/-- A literal character sequence under the flag `i`. -/
def istr (s : String) : RE := cat (s.toList.map ichr)

/-- The class `\s`. -/
def space : RE := cls isJsSpace

end RE

/-! ## The answer guardrail (`src/backend/lib/orchestrator.js`) -/

/-- The class `[0-9.\-+\/x=y]`. -/
def valueChar (c : Char) : Bool :=
  c.isDigit || c == '.' || c == '-' || c == '+' || c == '/' || c == 'x' || c == '=' || c == 'y'

/-- The class `[0-9.\-+\/]`. -/
def numberChar (c : Char) : Bool :=
  c.isDigit || c == '.' || c == '-' || c == '+' || c == '/'

/-- The class `[\.!]`. -/
def endChar (c : Char) : Bool := c == '.' || c == '!'

/-- The apostrophe. -/
def apostrophe : Char := Char.ofNat 39

open RE in
/-- The five patterns of `explicitFinalAnswerPatterns`, all under the flag `i`. -/
def explicitFinalAnswerPatterns : List RE :=
  [ -- /^the (final )?answer is\s+[0-9.\-+\/x=y]+[\.!]?$/i
    cat [bol, istr "the ", opt (istr "final "), istr "answer is", plus space,
         plus (icls valueChar), opt (icls endChar), eol],
    -- /^the solution is\s+[0-9.\-+\/x=y]+[\.!]?$/i
    cat [bol, istr "the solution is", plus space,
         plus (icls valueChar), opt (icls endChar), eol],
    -- /^it'?s\s+[0-9.\-+\/x=y]+[\.!]?$/i
    cat [bol, istr "it", opt (ichr apostrophe), istr "s", plus space,
         plus (icls valueChar), opt (icls endChar), eol],
    -- /^so the answer is\s+[0-9.\-+\/x=y]+[\.!]?$/i
    cat [bol, istr "so the answer is", plus space,
         plus (icls valueChar), opt (icls endChar), eol],
    -- /^therefore,?\s+(the answer|it) is\s+[0-9.\-+\/x=y]+[\.!]?$/i
    cat [bol, istr "therefore", opt (ichr ','), plus space,
         alt (istr "the answer") (istr "it"), istr " is", plus space,
         plus (icls valueChar), opt (icls endChar), eol] ]

open RE in
/-- The pattern of `isJustNumber`: `/^[0-9.\-+\/]+[\.!]?$/i`. -/
def justNumberPattern : RE :=
  cat [bol, plus (icls numberChar), opt (icls endChar), eol]

open RE in
/-- The pattern of `endsWithDirectAnswer`:
`/(?:^|\.)\s*x\s*=\s*[0-9.\-+\/]+\s*[\.!]?\s*$/i`. -/
def directAnswerPattern : RE :=
  cat [alt bol (ichr '.'), star space, ichr 'x', star space, ichr '=', star space,
       plus (icls numberChar), star space, opt (icls endChar), star space, eol]

/-- The fixed message that replaces a filtered reply. -/
def redirectMessage : JSString :=
  ("I see you're trying to find the answer! Let's work through this step by step. " ++
   "Can you tell me what your next step would be?").toList

/-- The function `filterDirectAnswers(reply, problem)`; the `console.warn`
calls are left out. -/
def filterDirectAnswers (reply : JSString) (problem : JSString) : JSString :=
  let isJustNumber := justNumberPattern.test (jsTrim reply)
  let endsWithDirectAnswer := directAnswerPattern.test (jsTrim reply)
  if explicitFinalAnswerPatterns.any (fun pattern => pattern.test (jsTrim reply)) then
    redirectMessage
  else if isJustNumber && decide (jsLength (jsTrim reply) < 20) then
    redirectMessage
  else if endsWithDirectAnswer && decide (jsLength (jsTrim reply) < 30) then
    redirectMessage
  else
    reply

/-! ## The conversation (`src/backend/lib`) -/

/-- The content of a stored turn: a plain string, or the record
`\x7b type: 'mixed', text, image \x7d`, whose image may be null. -/
inductive Content where
  | text (s : JSString) : Content
  | mixed (text : JSString) (image : Option JSString) : Content
  deriving DecidableEq, Repr

/-- The roles of turns and messages. -/
inductive Role where
  | user : Role
  | assistant : Role
  | system : Role
  deriving DecidableEq, Repr

/-- A turn of the stored history. Only a user turn may carry mixed content;
the content of an assistant turn is always a string. -/
inductive Turn where
  | user (content : Content) : Turn
  | assistant (content : JSString) : Turn
  | system (content : JSString) : Turn
  deriving DecidableEq, Repr

/-- The field `role` of a turn. -/
def Turn.role : Turn → Role
  | .user _ => Role.user
  | .assistant _ => Role.assistant
  | .system _ => Role.system

/-- The field `content` of a turn. -/
def Turn.content : Turn → Content
  | .user c => c
  | .assistant s => Content.text s
  | .system s => Content.text s

/-- Truthiness of a string that may be null: neither null nor empty. -/
def truthy : Option JSString → Bool
  | some (_ :: _) => true
  | _ => false

/-- The expression `a || b` on strings: `b` when `a` is empty. -/
def jsOr (a b : JSString) : JSString := if a.isEmpty then b else a

/-! ## The stuck detector (`src/backend/lib/validation.js`) -/

open RE in
/-- The nine patterns of `stuckPatterns`, all under the flag `i`. -/
def stuckPatterns : List RE :=
  [ cat [istr "i don", opt (ichr apostrophe), istr "t know"],       -- /i don'?t know/i
    istr "i have no idea",                                          -- /i have no idea/i
    cat [istr "i", ichr apostrophe, istr "m stuck"],                -- /i'm stuck/i
    cat [istr "i can", opt (ichr apostrophe), istr "t do this"],    -- /i can'?t do this/i
    cat [istr "i don", opt (ichr apostrophe), istr "t understand"], -- /i don'?t understand/i
    istr "help me",                                                 -- /help me/i
    istr "just tell me",                                            -- /just tell me/i
    cat [istr "what", ichr apostrophe, istr "s the answer"],        -- /what's the answer/i
    istr "i give up" ]                                              -- /i give up/i

/-- The diagnostic returned by `detectStuck`. -/
structure StuckDiagnostic where
  isStuck : Bool
  stuckCount : Nat
  reason : JSString
  deriving DecidableEq, Repr

/-- The text of a user turn that the stuck patterns are tested on:
`typeof msg.content === 'object' ? msg.content.text || '' : msg.content`. -/
def userText : Content → JSString
  | .text s => s
  | .mixed text _ => jsOr text []

/-- The test `stuckPatterns.some(pattern => pattern.test(content))`. -/
def matchesStuck (content : JSString) : Bool :=
  stuckPatterns.any (fun pattern => pattern.test content)

/-- The list `hintKeywords`. -/
def hintKeywords : List JSString :=
  ["hint".toList, "try".toList, "think about".toList, "consider".toList, "remember".toList]

/-- The method `String.prototype.includes`. -/
def jsIncludes (s k : JSString) : Bool := s.tails.any (fun t => k.isPrefixOf t)

/-- The test `hintKeywords.some(keyword => content.toLowerCase().includes(keyword))`,
with `toLowerCase` taken on ASCII letters. -/
def hasHintKeyword (content : JSString) : Bool :=
  hintKeywords.any (fun keyword => jsIncludes (content.map Char.toLower) keyword)

/-- The loop of `detectStuck`, from the newest turn to the oldest: the
argument lists the turns still to visit, newest first, and `stuckCount` is
the counter. -/
def countStuck : List Turn → Nat → Nat
  | [], stuckCount => stuckCount
  | .user content :: older, stuckCount =>
    if matchesStuck (userText content) then countStuck older (stuckCount + 1)
    else stuckCount
  | .assistant content :: older, stuckCount =>
    if hasHintKeyword content then countStuck older stuckCount
    else countStuck older stuckCount
  | .system _ :: older, stuckCount => countStuck older stuckCount

/-- The call `conversationHistory.slice(-k)`: the last `k` turns. -/
def sliceLast (k : Nat) (conversationHistory : List Turn) : List Turn :=
  conversationHistory.drop (conversationHistory.length - k)

/-- The function `detectStuck(conversationHistory)`. -/
def detectStuck (conversationHistory : List Turn) : StuckDiagnostic :=
  let recentMessages := sliceLast 6 conversationHistory
  let stuckCount := countStuck recentMessages.reverse 0
  let isStuck := decide (stuckCount ≥ 2)
  { isStuck := isStuck
    stuckCount := stuckCount
    reason :=
      if isStuck then
        "Student appears stuck (".toList ++ (Nat.repr stuckCount).toList ++
          " consecutive stuck signals)".toList
      else "Student is progressing normally".toList }

/-! ## The orchestrator (`src/backend/lib/orchestrator.js`) -/

/-- The constant `SYSTEM_PROMPT`. -/
def SYSTEM_PROMPT : JSString :=
  ("You are a patient and encouraging math tutor. Your role is to guide students through solving math problems using the Socratic method.\n" ++
   "\n" ++
   "CRITICAL RULES (MUST FOLLOW):\n" ++
   "1. NEVER give direct final answers - always use questions to guide the student\n" ++
   "2. NEVER reveal the numeric or algebraic final answer, even if student asks repeatedly\n" ++
   "3. If the student is stuck for 2+ consecutive turns, provide a concrete hint (partial step, not full solution)\n" ++
   "4. Use encouraging, supportive language\n" ++
   "5. Break down complex problems into smaller steps\n" ++
   "6. Ask questions that help students discover the solution themselves\n" ++
   "7. When a student answers correctly, acknowledge and move to the next step\n" ++
   "8. When a student answers incorrectly, give gentle feedback and ask a simpler question\n" ++
   "9. When a student shares an image (graph, diagram, work, etc.), you CAN see it and should reference specific details from the image in your guidance\n" ++
   "10. For graph problems, help students identify key features like intercepts, shape, end behavior, and relate them to function properties\n" ++
   "11. For multiple-choice questions with graphs, guide students to analyze the graph characteristics and match them to the function options\n" ++
   "\n" ++
   "VALIDATION AND CORRECTION RULES (CRITICAL - MUST FOLLOW):\n" ++
   "12. NEVER affirm a student answer without first verifying it against the actual problem statement, image, diagram, or given information\n" ++
   "13. When a student provides an answer, ALWAYS check it against what you can see in the problem/image/data before responding\n" ++
   "14. If you cannot verify an answer is correct, DO NOT affirm it - instead ask them to verify, recalculate, or look more carefully\n" ++
   "15. For problems with images/diagrams: You CAN see the image - carefully verify all details (coordinates, measurements, labels, etc.) before confirming any answer\n" ++
   "16. If a student gives an answer that doesn't match what you can verify, DO NOT say \"Great!\" or \"Yes!\" - instead guide them to check their work or reconsider\n" ++
   "17. Use phrases like \"Let's verify that together\" or \"Can you walk me through how you got that?\" instead of immediately confirming\n" ++
   "18. If a student gives an incorrect answer, respond with: \"Let's check that step by step\" or \"Can you double-check your work?\" - NEVER affirm incorrect answers\n" ++
   "19. Only use affirmative language (\"Yes!\", \"Great!\", \"Perfect!\") when you have verified the answer is ACTUALLY correct by checking the problem/image/calculations\n" ++
   "20. When in doubt about an answer's correctness, default to asking the student to verify, explain their reasoning, or recalculate rather than affirming\n" ++
   "\n" ++
   "HINT ESCALATION STRATEGY:\n" ++
   "- After 2+ stuck signals: Provide a concrete partial step (e.g., \"Try isolating x on one side\" not \"x = 5\")\n" ++
   "- After 3+ stuck signals: Give a more detailed hint but still partial (e.g., \"Start by subtracting 5 from both sides\")\n" ++
   "- NEVER escalate to giving the full solution or final answer\n" ++
   "\n" ++
   "ANSWER VALIDATION STRATEGY (STRICT PROTOCOL):\n" ++
   "- STEP 1: Student provides an answer\n" ++
   "- STEP 2: Check the answer against the actual problem statement, image, diagram, or given data you can see\n" ++
   "- STEP 3A: If answer is CORRECT and VERIFIED: Acknowledge and move forward\n" ++
   "- STEP 3B: If answer is INCORRECT or UNVERIFIED: Do NOT affirm - guide them to verify (e.g., \"Let's check that step by step\" or \"Can you verify your calculation?\")\n" ++
   "- STEP 3C: If you're UNSURE: Ask them to verify, explain their reasoning, or recalculate rather than affirming\n" ++
   "- CRITICAL: Never use affirmative language (\"Yes!\", \"Great!\", \"Perfect!\") unless you have verified the answer is correct\n" ++
   "- For all problem types: Verify answers against the actual problem data, don't just accept what the student says\n" ++
   "\n" ++
   "Remember: Your goal is to help students learn by discovering, not by giving answers. When images are shared, use the visual information to provide more targeted guidance.").toList

/-- A part of a multi-part message. -/
inductive Part where
  | text (text : JSString) : Part
  | image_url (url : JSString) : Part
  deriving DecidableEq, Repr

/-- The content of a message sent to the completion provider: the stored
content of a turn passed on as it is, or a list of parts. -/
inductive MessageContent where
  | stored (content : Content) : MessageContent
  | parts (ps : List Part) : MessageContent
  deriving DecidableEq, Repr

/-- A message of the assembled prompt. -/
structure Message where
  role : Role
  content : MessageContent
  deriving DecidableEq, Repr

/-- The argument of `openai.chat.completions.create`; the temperature is in
tenths (0.7 is 7). -/
structure CompletionRequest where
  model : JSString
  messages : List Message
  temperatureTenths : Nat
  max_tokens : Nat
  deriving DecidableEq, Repr

/-- An error, with its message. -/
structure JSError where
  message : JSString
  deriving DecidableEq, Repr

/-- The completion provider: it maps a request to the text of the first
choice, or fails with an error. -/
abbrev Provider := CompletionRequest → Except JSError JSString

/-- What `getOpenAIClient` depends on (`src/backend/lib/openai.js`): the
cached client, the variable `OPENAI_API_KEY`, and the constructor of a
client from a key. -/
structure Env where
  openaiClient : Option Provider
  apiKey : Option JSString
  newClient : JSString → Provider

/-- The function `getOpenAIClient()`. -/
def getOpenAIClient (env : Env) : Except JSError Provider :=
  match env.openaiClient with
  | some client => .ok client
  | none =>
    if truthy env.apiKey then .ok (env.newClient (env.apiKey.getD []))
    else .error ⟨"OPENAI_API_KEY is not set in environment variables".toList⟩

/-- The text appended to the system prompt when the student is stuck. -/
def stuckNote (stuckCount : Nat) : JSString :=
  "\n\nIMPORTANT: The student appears to be stuck (".toList ++ (Nat.repr stuckCount).toList ++
  (" consecutive stuck signals). You should provide a concrete hint (partial step) to help " ++
   "them make progress. However, still NEVER give the final answer.").toList

/-- The loop that sets `referenceImageFromHistory`: the image of the first
user turn whose content is an object with a truthy image. -/
def referenceImageFromHistory : List Turn → Option JSString
  | [] => none
  | .user (.mixed _ image) :: later =>
    if truthy image then image else referenceImageFromHistory later
  | _ :: later => referenceImageFromHistory later

/-- The message that a turn of the history becomes. -/
def historyMessage : Turn → Message
  | .user (.mixed text image) =>
    if truthy image then
      { role := Role.user
        content := .parts [.text (jsOr text "I shared an image with this message.".toList),
                           .image_url (image.getD [])] }
    else { role := Role.user, content := .stored (.mixed text image) }
  | msg => { role := msg.role, content := .stored msg.content }

/-- The message list built by `generateResponse`. -/
def buildMessages (problem : JSString) (conversationHistory : List Turn)
    (userMessage : JSString) (image : Option JSString) : List Message :=
  let stuckInfo := detectStuck conversationHistory
  let enhancedSystemPrompt :=
    if stuckInfo.isStuck then SYSTEM_PROMPT ++ stuckNote stuckInfo.stuckCount else SYSTEM_PROMPT
  let messages : List Message :=
    [ { role := Role.system, content := .stored (.text enhancedSystemPrompt) },
      { role := Role.system,
        content := .stored (.text ("The math problem we're working on is: ".toList ++ problem)) } ]
  let referenceImageFromHistory := referenceImageFromHistory conversationHistory
  let messages := messages ++ conversationHistory.map historyMessage
  let messages :=
    if truthy referenceImageFromHistory &&
        (!truthy image || image != referenceImageFromHistory) &&
        conversationHistory.length == 0 then
      messages ++
        [ { role := Role.user
            content := .parts
              [.text ("Reference image of the problem (always visible for context - " ++
                      "includes graphs, diagrams, equations, etc.):").toList,
               .image_url (referenceImageFromHistory.getD [])] } ]
    else messages
  if truthy image && image != referenceImageFromHistory then
    let textPrompt := jsOr userMessage "I need help with this image.".toList
    messages ++
      [ { role := Role.user, content := .parts [.text textPrompt, .image_url (image.getD [])] } ]
  else
    messages ++ [ { role := Role.user, content := .stored (.text (jsOr userMessage [])) } ]

/-- The model chosen by `generateResponse`. -/
def chooseModel (conversationHistory : List Turn) (image : Option JSString) : JSString :=
  let hasAnyImage := truthy image || truthy (referenceImageFromHistory conversationHistory)
  if hasAnyImage then "gpt-4o".toList else "gpt-4".toList

/-- The value that `generateResponse` resolves to. -/
structure Response where
  reply : JSString
  updatedHistory : List Turn
  stuckInfo : StuckDiagnostic
  deriving DecidableEq, Repr

/-- The method `generateResponse(userMessage, image)` of the orchestrator
created by `createOrchestrator(problem, conversationHistory)`; a rejected
promise is an `error`. -/
def generateResponse (env : Env) (problem : JSString) (conversationHistory : List Turn)
    (userMessage : JSString) (image : Option JSString) : Except JSError Response :=
  match getOpenAIClient env with
  | .error e => .error e
  | .ok openai =>
    let stuckInfo := detectStuck conversationHistory
    let messages := buildMessages problem conversationHistory userMessage image
    let model := chooseModel conversationHistory image
    match openai { model := model, messages := messages, temperatureTenths := 7,
                   max_tokens := 500 } with
    | .error error =>
      .error ⟨"Failed to generate response: ".toList ++ error.message⟩
    | .ok raw =>
      let reply := filterDirectAnswers raw problem
      let userHistoryContent :=
        if truthy image then Content.mixed (jsOr userMessage []) image
        else Content.text (jsOr userMessage [])
      let updatedHistory :=
        conversationHistory ++ [Turn.user userHistoryContent, Turn.assistant reply]
      .ok { reply := reply, updatedHistory := updatedHistory, stuckInfo := stuckInfo }

/-- A provider that answers every request with the same text. -/
def constantProvider (raw : JSString) : Provider := fun _ => .ok raw

/-- An environment whose client is already there. -/
def readyEnv (client : Provider) : Env :=
  { openaiClient := some client, apiKey := none, newClient := fun _ => client }

/-- A response used as a concrete instance. -/
def sampleResponse : Response :=
  { reply := "What is 2 + 3?".toList
    updatedHistory :=
      [Turn.user (Content.text "hello".toList), Turn.assistant "Hi!".toList,
       Turn.user (Content.mixed "I think 5".toList (some "data:image/png".toList)),
       Turn.assistant "What is 2 + 3?".toList]
    stuckInfo := detectStuck
      [Turn.user (Content.text "hello".toList), Turn.assistant "Hi!".toList] }

/-! ## Vocabulary of the statements -/

/-- The character `a` is the character `b`, in either letter case. -/
def caseVariant (a b : Char) : Prop := a = b ∨ a = b.toUpper ∨ a = b.toLower

/-- The string `p` spells the string `t` up to the case of its letters. -/
def SameUpToCase (p t : JSString) : Prop := List.Forall₂ caseVariant p t

/-- The literal characters `s` of a pattern under the flag `i` accept every
case variant of the characters `t`, position by position. -/
def litsAccept : List Char → List Char → Bool
  | [], [] => true
  | c :: s, b :: t =>
    (b == c || b.toLower == c || b.toUpper == c) &&
    (b.toUpper == c || b.toUpper.toLower == c || b.toUpper.toUpper == c) &&
    (b.toLower == c || b.toLower.toLower == c || b.toLower.toUpper == c) &&
    litsAccept s t
  | _, _ => false

/-- The sentence templates of the explicit final-answer phrasing, each
followed in a reply by a blank and the value. -/
def answerTemplates : List JSString :=
  ["The answer is".toList, "The final answer is".toList, "The solution is".toList,
   "It's".toList, "So the answer is".toList, "Therefore, the answer is".toList]

instance caseVariant.decidable (a b : Char) : Decidable (caseVariant a b) :=
  inferInstanceAs (Decidable (a = b ∨ a = b.toUpper ∨ a = b.toLower))

instance SameUpToCase.decidable (p t : JSString) : Decidable (SameUpToCase p t) :=
  inferInstanceAs (Decidable (List.Forall₂ caseVariant p t))

/-- The character `c` is the letter `x` in either case, as the pattern
character `x` under the flag `i` sees it. -/
def isLetter (x c : Char) : Bool := c == x || c.toLower == x || c.toUpper == x

/-- The trimmed reply `t` ends in a variable assignment `x = <number>`:
some text, then `x`, blanks, `=`, blanks, a numeric token, and at most one
final `.` or `!`, with nothing after it. -/
def EndsInAssignment (t : JSString) : Prop :=
  ∃ pre ws1 ws2 num e : JSString,
    t = pre ++ 'x' :: (ws1 ++ '=' :: (ws2 ++ (num ++ e))) ∧
    (∀ c ∈ ws1, c = ' ') ∧ (∀ c ∈ ws2, c = ' ') ∧
    num ≠ [] ∧ (∀ c ∈ num, c ∈ "0123456789.-+/".toList) ∧
    (e = [] ∨ e = ['.'] ∨ e = ['!'])

/-- The text of a turn when it is a user turn: the string itself, or the
text of the mixed record. -/
def userTurnText : Turn → Option JSString
  | .user (.text s) => some s
  | .user (.mixed text _) => some text
  | _ => none

/-- The number of user turns met when scanning the turns, given newest
first, skipping the turns that are not user turns, before the first user turn
whose text matches no stuck pattern. -/
def stuckRun (newestFirst : List Turn) : Nat :=
  ((newestFirst.filterMap userTurnText).takeWhile matchesStuck).length

/-- The history of the example of section 8 of the specification. -/
def exampleHistory : List Turn :=
  [Turn.user (Content.text "I don't know".toList), Turn.assistant "...".toList,
   Turn.user (Content.text "I'm stuck".toList)]

/-- A history of eight turns in which only the newest user turn is a stuck
signal. -/
def progressingHistory : List Turn :=
  [Turn.user (Content.text "I don't know".toList), Turn.assistant "Try isolating x.".toList,
   Turn.user (Content.text "I give up".toList), Turn.assistant "What is 7 - 2?".toList,
   Turn.user (Content.text "Is it 5?".toList), Turn.assistant "Let's verify.".toList,
   Turn.user (Content.mixed "help me".toList (some "data:image/png".toList)),
   Turn.assistant "Think about the next step.".toList]

/-- What the stuck detector can see of a turn: its role and, for a user
turn, its text. -/
def stuckView (turn : Turn) : Role × Option JSString := (turn.role, userTurnText turn)

/-- Two histories with the same roles and the same user texts: the first has
assistant replies without hint keywords and one image, the second has a
hint keyword in every assistant reply and another image. -/
def plainRepliesHistory : List Turn :=
  [Turn.user (Content.mixed "I don't know".toList (some "data:image/png;A".toList)),
   Turn.assistant "What is 7 - 2?".toList,
   Turn.user (Content.text "I'm stuck".toList),
   Turn.assistant "Look at the left side.".toList]

/-- The second history: see `plainRepliesHistory`. -/
def hintRepliesHistory : List Turn :=
  [Turn.user (Content.mixed "I don't know".toList (some "data:image/jpeg;B".toList)),
   Turn.assistant "Here is a hint: try 7 - 2.".toList,
   Turn.user (Content.text "I'm stuck".toList),
   Turn.assistant "Remember to consider the left side.".toList]

/-- The image that a turn brings: the image of a user turn whose content is
mixed and whose image is present (neither null nor the empty string). -/
def presentImage : Turn → Option JSString
  | .user (.mixed _ image) => if truthy image then image else none
  | _ => none

/-- A message carries an image when its content is a list of parts with an
image part among them. -/
def hasImagePart (message : Message) : Bool :=
  match message.content with
  | .parts ps => ps.any (fun part => match part with
      | .image_url _ => true
      | .text _ => false)
  | .stored _ => false

/-- The content of the first system message built by `generateResponse`:
the variable `enhancedSystemPrompt`. -/
def enhancedSystemPrompt (conversationHistory : List Turn) : JSString :=
  if (detectStuck conversationHistory).isStuck then
    SYSTEM_PROMPT ++ stuckNote (detectStuck conversationHistory).stuckCount
  else SYSTEM_PROMPT

/-- The second system message built by `generateResponse`, stating the
problem. -/
def problemMessage (problem : JSString) : Message :=
  { role := Role.system
    content := .stored (.text ("The math problem we're working on is: ".toList ++ problem)) }

/-- The message of the current turn, the last one pushed by
`generateResponse`, given the reference image resolved from the history. -/
def currentMessage (referenceImage : Option JSString) (userMessage : JSString)
    (image : Option JSString) : Message :=
  if truthy image && image != referenceImage then
    { role := Role.user
      content := .parts [.text (jsOr userMessage "I need help with this image.".toList),
                         .image_url (image.getD [])] }
  else { role := Role.user, content := .stored (.text (jsOr userMessage [])) }

/-- The request that `generateResponse` passes to the provider. -/
def completionRequest (problem : JSString) (conversationHistory : List Turn)
    (userMessage : JSString) (image : Option JSString) : CompletionRequest :=
  { model := chooseModel conversationHistory image
    messages := buildMessages problem conversationHistory userMessage image
    temperatureTenths := 7
    max_tokens := 500 }

/-- The system messages of a message list. -/
def systemMessages (messages : List Message) : List Message :=
  messages.filter (fun message => message.role == Role.system)

/-- The system turns of a history. -/
def systemTurns (history : List Turn) : List Turn :=
  history.filter (fun turn => turn.role == Role.system)

/-- The wording of the stuck note before the printed count. -/
def stuckNoteBefore : JSString :=
  "\n\nIMPORTANT: The student appears to be stuck (".toList

/-- The wording of the stuck note after the printed count. -/
def stuckNoteAfter : JSString :=
  (" consecutive stuck signals). You should provide a concrete hint (partial step) to help " ++
   "them make progress. However, still NEVER give the final answer.").toList

/-- A history whose last three user turns are stuck signals. -/
def threeSignalsHistory : List Turn :=
  [Turn.user (Content.text "I don't know".toList), Turn.assistant "...".toList,
   Turn.user (Content.text "I'm stuck".toList), Turn.assistant "...".toList,
   Turn.user (Content.text "just tell me".toList)]

/-- The text of a turn, empty when the turn is not a user turn. -/
def turnText (turn : Turn) : JSString := (userTurnText turn).getD []

/-- A provider with an internal state: a call returns its result and the
next state. -/
abbrev StatefulProvider (σ : Type) := σ → CompletionRequest → Except JSError JSString × σ

/-- The method `generateResponse` with the state of the provider made
explicit, so that the calls made to the provider can be observed; `client` is
the result of `getOpenAIClient()`. -/
def generateResponseS {σ : Type} (client : Except JSError (StatefulProvider σ))
    (problem : JSString) (conversationHistory : List Turn) (userMessage : JSString)
    (image : Option JSString) (s : σ) : Except JSError Response × σ :=
  match client with
  | .error e => (.error e, s)
  | .ok openai =>
    let stuckInfo := detectStuck conversationHistory
    let messages := buildMessages problem conversationHistory userMessage image
    let model := chooseModel conversationHistory image
    match openai s { model := model, messages := messages, temperatureTenths := 7,
                     max_tokens := 500 } with
    | (.error error, s1) =>
      (.error ⟨"Failed to generate response: ".toList ++ error.message⟩, s1)
    | (.ok raw, s1) =>
      let reply := filterDirectAnswers raw problem
      let userHistoryContent :=
        if truthy image then Content.mixed (jsOr userMessage []) image
        else Content.text (jsOr userMessage [])
      let updatedHistory :=
        conversationHistory ++ [Turn.user userHistoryContent, Turn.assistant reply]
      (.ok { reply := reply, updatedHistory := updatedHistory, stuckInfo := stuckInfo }, s1)

/-- A provider without state, seen as a stateful one. -/
def statelessProvider {σ : Type} (openai : Provider) : StatefulProvider σ :=
  fun s request => (openai request, s)

/-- A provider whose state counts its calls, and which fails on its first
call only. -/
def flakyProvider : StatefulProvider Nat :=
  fun calls _ =>
    if calls = 0 then (.error ⟨"rate limit".toList⟩, calls + 1)
    else (.ok "What is 7 - 2?".toList, calls + 1)

/-! ## The serverless orchestrator (`src/lib/orchestrator.js`) -/

namespace Lib

/-- The constant `SYSTEM_PROMPT` of `src/lib/orchestrator.js`. -/
def SYSTEM_PROMPT : JSString :=
  ("You are a patient and encouraging math tutor. Your role is to guide students through solving math problems using the Socratic method.\n" ++
   "\n" ++
   "CRITICAL RULES:\n" ++
   "1. NEVER give direct final answers - always use questions to guide the student\n" ++
   "2. If the student is stuck for 2+ consecutive turns, provide a concrete hint (partial step, not full solution)\n" ++
   "3. Use encouraging, supportive language\n" ++
   "4. Break down complex problems into smaller steps\n" ++
   "5. Ask questions that help students discover the solution themselves\n" ++
   "6. When a student answers correctly, acknowledge and move to the next step\n" ++
   "7. When a student answers incorrectly, give gentle feedback and ask a simpler question\n" ++
   "\n" ++
   "Remember: Your goal is to help students learn by discovering, not by giving answers.").toList

/-- The value that `generateResponse` of `src/lib/orchestrator.js` resolves
to. -/
structure Response where
  reply : JSString
  updatedHistory : List Turn
  deriving DecidableEq, Repr

/-- The message list built by `generateResponse` of `src/lib/orchestrator.js`:
the turns of the history are passed on as they are. -/
def buildMessages (problem : JSString) (conversationHistory : List Turn)
    (userMessage : JSString) : List Message :=
  [ { role := Role.system, content := .stored (.text SYSTEM_PROMPT) },
    { role := Role.system
      content := .stored (.text ("The math problem we're working on is: ".toList ++ problem)) } ]
  ++ conversationHistory.map (fun msg => { role := msg.role, content := .stored msg.content })
  ++ [ { role := Role.user, content := .stored (.text userMessage) } ]

/-- The method `generateResponse(userMessage)` of the orchestrator created by
`createOrchestrator(problem, conversationHistory)` in
`src/lib/orchestrator.js`. The module `./openai.js` that it imports is not
among the sources: `client` is the outcome of its `getOpenAIClient()`. -/
def generateResponse (client : Except JSError Provider) (problem : JSString)
    (conversationHistory : List Turn) (userMessage : JSString) : Except JSError Response :=
  match client with
  | .error e => .error e
  | .ok openai =>
    let messages := buildMessages problem conversationHistory userMessage
    match openai { model := "gpt-4".toList, messages := messages, temperatureTenths := 7,
                   max_tokens := 500 } with
    | .error error =>
      .error ⟨"Failed to generate response: ".toList ++ error.message⟩
    | .ok reply =>
      let updatedHistory :=
        conversationHistory ++
          [Turn.user (Content.text userMessage), Turn.assistant reply]
      .ok { reply := reply, updatedHistory := updatedHistory }

end Lib

/-! ## Matches with their text (`String.prototype.match`) -/

namespace RE

/-- Iteration of a matcher in the order of backtracking: a greedy `*` tries
one more round before it tries to stop; every round has to consume input. -/
def iterOrdered (f : List Char → List (List Char)) : Nat → List Char → List (List Char)
  | 0, t => [t]
  | fuel + 1, t =>
    ((f t).filter (fun u => u.length < t.length)).flatMap (iterOrdered f fuel) ++ [t]

/-- The matcher `run` with its results in the order in which backtracking
finds them: the first one is the end of the match that is reported. -/
def runOrdered (n : Nat) : RE → List Char → List (List Char)
  | eps, t => [t]
  | bol, t => if t.length = n then [t] else []
  | eol, t => if t.isEmpty then [t] else []
  | cls p, t =>
    match t with
    | [] => []
    | c :: u => if p c then [u] else []
  | seq a b, t => (runOrdered n a t).flatMap (fun u => runOrdered n b u)
  | alt a b, t => runOrdered n a t ++ runOrdered n b t
  | star a, t => iterOrdered (fun u => runOrdered n a u) t.length t

/-- The first match among the given start positions: its text. -/
def execFrom (n : Nat) (r : RE) : List (List Char) → Option JSString
  | [] => none
  | t :: later =>
    match runOrdered n r t with
    | u :: _ => some (t.take (t.length - u.length))
    | [] => execFrom n r later

/-- The element 0 of `s.match(r)` for a pattern without the flag `g`: the
text of the leftmost match, or `none` when the result is null. -/
def exec (r : RE) (s : JSString) : Option JSString := execFrom s.length r s.tails

/-- A literal character. -/
def chr (c : Char) : RE := cls (fun d => d == c)

/-- The class `[\s\S]`: any character. -/
def anyChar : RE := cls (fun c => isJsSpace c || !isJsSpace c)

end RE

/-! ## JSON values -/

/-- A number, by its decimal writing `mantissa × 10 ^ exponent`; the
rounding of a literal to a double is not part of the model. -/
structure JSNumber where
  mantissa : Int
  exponent : Int
  deriving DecidableEq, Repr

/-- The values that `JSON.parse` returns. -/
inductive JSValue where
  | null : JSValue
  | bool (b : Bool) : JSValue
  | num (x : JSNumber) : JSValue
  | str (s : JSString) : JSValue
  | arr (items : List JSValue) : JSValue
  | obj (fields : List (JSString × JSValue)) : JSValue

/-- Truthiness of a value that may be undefined (`none`): undefined, null,
false, zero and the empty string are falsy. -/
def truthyValue : Option JSValue → Bool
  | none => false
  | some .null => false
  | some (.bool b) => b
  | some (.num x) => x.mantissa != 0
  | some (.str s) => !s.isEmpty
  | some (.arr _) => true
  | some (.obj _) => true

/-- The expression `v || d` for a value `v` that may be undefined. -/
def jsOrValue (v : Option JSValue) (d : JSValue) : JSValue :=
  match v with
  | some x => if truthyValue (some x) then x else d
  | none => d

/-- The own property `name` of an object built by `JSON.parse`: of the
members with that name, the last one. -/
def lookupField (fields : List (JSString × JSValue)) (name : JSString) : Option JSValue :=
  ((fields.filter (fun field => field.1 == name)).getLast?).map (fun field => field.2)

/-- The property access `result.name`, for the three names read by
`validateAnswer`: a `TypeError` on null, the member of an object, and
undefined on every other value. -/
def getField (result : JSValue) (name : JSString) : Except JSError (Option JSValue) :=
  match result with
  | .null =>
    .error ⟨"Cannot read properties of null (reading '".toList ++ name ++ "')".toList⟩
  | .obj fields => .ok (lookupField fields name)
  | _ => .ok none

/-! ## A model of `JSON.parse` -/

/-- White space of JSON. -/
def isJsonSpace (c : Char) : Bool := c == ' ' || c == '\t' || c == '\n' || c == '\r'

/-- The input after its leading white space. -/
def skipSpace (cs : List Char) : List Char := cs.dropWhile isJsonSpace

/-- The value of a sequence of decimal digits. -/
def digitsValue (ds : List Char) : Nat := ds.foldl (fun n c => 10 * n + (c.toNat - 48)) 0

/-- A JSON number literal at the start of the input: its value and the rest
of the input. -/
def parseNumber (cs : List Char) : Option (JSNumber × List Char) :=
  let negative := cs.head? == some '-'
  let cs := if negative then cs.drop 1 else cs
  let intDigits := cs.takeWhile Char.isDigit
  let rest := cs.dropWhile Char.isDigit
  if intDigits.isEmpty || (decide (1 < intDigits.length) && intDigits.head? == some '0') then none
  else
    let hasFraction := rest.head? == some '.'
    let fracDigits := if hasFraction then (rest.drop 1).takeWhile Char.isDigit else []
    let rest := if hasFraction then (rest.drop 1).dropWhile Char.isDigit else rest
    if hasFraction && fracDigits.isEmpty then none
    else
      let hasExponent := rest.head? == some 'e' || rest.head? == some 'E'
      let afterE := rest.drop 1
      let minus := afterE.head? == some '-'
      let signed := minus || afterE.head? == some '+'
      let expDigits := (if signed then afterE.drop 1 else afterE).takeWhile Char.isDigit
      let afterExp := (if signed then afterE.drop 1 else afterE).dropWhile Char.isDigit
      if hasExponent && expDigits.isEmpty then none
      else
        let mantissa : Int := digitsValue (intDigits ++ fracDigits)
        let written : Int := if minus then - (digitsValue expDigits : Int) else digitsValue expDigits
        let exponent : Int := (if hasExponent then written else 0) - fracDigits.length
        some (⟨if negative then - mantissa else mantissa, exponent⟩,
              if hasExponent then afterExp else rest)

/-- The value of a hexadecimal digit. -/
def hexValue (c : Char) : Option Nat :=
  if c.isDigit then some (c.toNat - 48)
  else if 97 ≤ c.toNat ∧ c.toNat ≤ 102 then some (c.toNat - 87)
  else if 65 ≤ c.toNat ∧ c.toNat ≤ 70 then some (c.toNat - 55)
  else none

/-- The character written by the escape `\e`, for the one-letter escapes. -/
def unescape (e : Char) : Option Char :=
  if e == '"' then some '"'
  else if e == '\\' then some '\\'
  else if e == '/' then some '/'
  else if e == 'b' then some (Char.ofNat 8)
  else if e == 'f' then some (Char.ofNat 12)
  else if e == 'n' then some '\n'
  else if e == 'r' then some '\r'
  else if e == 't' then some '\t'
  else none

/-- The rest of a JSON string after its opening quote: the characters read
so far are in `acc`, newest first. Escapes `\uXXXX` of surrogate halves are
not part of the model and are refused. -/
def parseStringBody : List Char → List Char → Option (JSString × List Char)
  | [], _ => none
  | c :: rest, acc =>
    if c == '"' then some (acc.reverse, rest)
    else if c == '\\' then
      match rest with
      | [] => none
      | e :: rest2 =>
        if e == 'u' then
          match rest2 with
          | h1 :: h2 :: h3 :: h4 :: rest3 =>
            match hexValue h1, hexValue h2, hexValue h3, hexValue h4 with
            | some a, some b, some c3, some d =>
              let code := ((a * 16 + b) * 16 + c3) * 16 + d
              if 55296 ≤ code ∧ code ≤ 57343 then none
              else parseStringBody rest3 (Char.ofNat code :: acc)
            | _, _, _, _ => none
          | _ => none
        else
          match unescape e with
          | some x => parseStringBody rest2 (x :: acc)
          | none => none
    else if c.toNat < 32 then none
    else parseStringBody rest (c :: acc)

/-- The elements of a non-empty array after its opening bracket, given the
parser `pv` of one value. -/
def parseElements (pv : List Char → Option (JSValue × List Char)) :
    Nat → List Char → List JSValue → Option (List JSValue × List Char)
  | 0, _, _ => none
  | fuel + 1, cs, acc =>
    match pv cs with
    | none => none
    | some (v, rest) =>
      match skipSpace rest with
      | c :: rest2 =>
        if c == ',' then parseElements pv fuel (skipSpace rest2) (v :: acc)
        else if c == ']' then some ((v :: acc).reverse, rest2)
        else none
      | [] => none

/-- The members of a non-empty object after its opening brace, given the
parser `pv` of one value. -/
def parseMembers (pv : List Char → Option (JSValue × List Char)) :
    Nat → List Char → List (JSString × JSValue) →
      Option (List (JSString × JSValue) × List Char)
  | 0, _, _ => none
  | fuel + 1, cs, acc =>
    match cs with
    | [] => none
    | q :: afterQuote =>
      if q == '"' then
        match parseStringBody afterQuote [] with
        | none => none
        | some (key, rest) =>
          match skipSpace rest with
          | [] => none
          | colon :: rest2 =>
            if colon == ':' then
              match pv (skipSpace rest2) with
              | none => none
              | some (v, rest3) =>
                match skipSpace rest3 with
                | c :: rest4 =>
                  if c == ',' then parseMembers pv fuel (skipSpace rest4) ((key, v) :: acc)
                  else if c == '}' then some (((key, v) :: acc).reverse, rest4)
                  else none
                | [] => none
            else none
      else none

/-- A JSON value at the start of the input (white space already skipped):
the value and the rest of the input. -/
def parseValue : Nat → List Char → Option (JSValue × List Char)
  | 0, _ => none
  | fuel + 1, cs =>
    if "null".toList.isPrefixOf cs then some (.null, cs.drop 4)
    else if "true".toList.isPrefixOf cs then some (.bool true, cs.drop 4)
    else if "false".toList.isPrefixOf cs then some (.bool false, cs.drop 5)
    else
      match cs with
      | [] => none
      | c :: rest =>
        if c == '"' then
          (parseStringBody rest []).map (fun r => (JSValue.str r.1, r.2))
        else if c == '[' then
          match skipSpace rest with
          | [] => none
          | d :: rest2 =>
            if d == ']' then some (.arr [], rest2)
            else
              (parseElements (fun input => parseValue fuel input) fuel (d :: rest2) []).map
                (fun r => (JSValue.arr r.1, r.2))
        else if c == '{' then
          match skipSpace rest with
          | [] => none
          | d :: rest2 =>
            if d == '}' then some (.obj [], rest2)
            else
              (parseMembers (fun input => parseValue fuel input) fuel (d :: rest2) []).map
                (fun r => (JSValue.obj r.1, r.2))
        else (parseNumber cs).map (fun r => (JSValue.num r.1, r.2))

/-- A model of `JSON.parse(text)`: the value of the text, or `none` when
`JSON.parse` throws a `SyntaxError`. -/
def jsonParse (text : JSString) : Option JSValue :=
  match parseValue (text.length + 1) (skipSpace text) with
  | some (v, rest) => if (skipSpace rest).isEmpty then some v else none
  | none => none

/-! ## The answer validation judge (`src/backend/lib/validation.js`) -/

/-- The verdict returned by `validateAnswer`; each field holds the value
that the code puts there, of whatever type. -/
structure Verdict where
  isCorrect : JSValue
  feedback : JSValue
  confidence : JSValue

/-- The verdict returned by the `catch` block of `validateAnswer`. -/
def neutralVerdict : Verdict :=
  { isCorrect := .bool false
    feedback := .str "Unable to validate answer. Please try again.".toList
    confidence := .num ⟨0, 0⟩ }

/-- The pattern `/\x7b[\s\S]*\x7d/` of `validateAnswer`. -/
def bracePattern : RE :=
  RE.cat [RE.chr (Char.ofNat 123), RE.star RE.anyChar, RE.chr (Char.ofNat 125)]

/-- The text `validationPrompt` of `validateAnswer`. -/
def validationPrompt (studentAnswer problem : JSString) (expectedAnswer : Option JSString) :
    JSString :=
    ("You are a math tutor validating a student's answer. Determine if the student's answer is correct.\n" ++
     "\n" ++
     "Problem: ").toList ++ problem ++
    ("\n" ++
     "Student's Answer: ").toList ++ studentAnswer ++
    ("\n").toList ++
    (if truthy expectedAnswer then "Expected Answer: ".toList ++ expectedAnswer.getD []
     else "No expected answer provided - evaluate based on the problem statement.".toList) ++
    ("\n" ++
     "\n" ++
     "Evaluate the student's answer carefully:\n" ++
     "- For numeric answers, allow for small rounding differences and alternative formats (e.g., \"2.5\" vs \"5/2\" vs \"2 1/2\")\n" ++
     "- For algebraic answers, check if the expressions are equivalent\n" ++
     "- Consider if the answer is partially correct or on the right track\n" ++
     "- Be encouraging but accurate\n" ++
     "\n" ++
     "Respond in JSON format:\n" ++
     "\x7b\n" ++
     "  \"isCorrect\": true/false,\n" ++
     "  \"feedback\": \"Brief, encouraging feedback explaining why it's correct or what's wrong\",\n" ++
     "  \"confidence\": 0.0-1.0 (how confident you are in the validation)\n" ++
     "\x7d").toList

/-- The request that `validateAnswer` passes to the provider; the
temperature 0.3 is 3 tenths. -/
def validationRequest (studentAnswer problem : JSString) (expectedAnswer : Option JSString) :
    CompletionRequest :=
  { model := "gpt-4".toList
    messages :=
      [ { role := Role.system
          content := .stored (.text "You are a math tutor validating student answers. Always respond in valid JSON format with this exact structure: \x7b\"isCorrect\": true/false, \"feedback\": \"string\", \"confidence\": 0.0-1.0\x7d".toList) },
        { role := Role.user
          content := .stored (.text (validationPrompt studentAnswer problem expectedAnswer)) } ]
    temperatureTenths := 3
    max_tokens := 300 }

/-- The value `result` of `validateAnswer`: `JSON.parse` of the whole text,
or else of the text matched by the brace pattern; `parse` is `JSON.parse`,
with `none` for a thrown `SyntaxError`. -/
def parseResponse (parse : JSString → Option JSValue) (content : JSString) :
    Except JSError JSValue :=
  match parse content with
  | some result => .ok result
  | none =>
    match RE.exec bracePattern content with
    | some jsonMatch =>
      match parse jsonMatch with
      | some result => .ok result
      | none => .error ⟨"SyntaxError".toList⟩
    | none => .error ⟨"Could not parse validation response as JSON".toList⟩

/-- The object returned at the end of the `try` block of `validateAnswer`. -/
def buildVerdict (result : JSValue) : Except JSError Verdict :=
  match getField result "isCorrect".toList, getField result "feedback".toList,
        getField result "confidence".toList with
  | .ok isCorrect, .ok feedback, .ok confidence =>
    .ok { isCorrect := jsOrValue isCorrect (.bool false)
          feedback := jsOrValue feedback (.str "Answer received.".toList)
          confidence := jsOrValue confidence (.num ⟨5, -1⟩) }
  | .error e, _, _ => .error e
  | _, .error e, _ => .error e
  | _, _, .error e => .error e

/-- The function `validateAnswer(studentAnswer, problem, expectedAnswer)`;
`parse` is `JSON.parse`, and a rejected promise is an `error`. -/
def validateAnswer (env : Env) (parse : JSString → Option JSValue)
    (studentAnswer problem : JSString) (expectedAnswer : Option JSString) :
    Except JSError Verdict :=
  match getOpenAIClient env with
  | .error e => .error e
  | .ok openai =>
    let attempt : Except JSError Verdict :=
      match openai (validationRequest studentAnswer problem expectedAnswer) with
      | .error e => .error e
      | .ok content =>
        match parseResponse parse content with
        | .error e => .error e
        | .ok result => buildVerdict result
    match attempt with
    | .ok verdict => .ok verdict
    | .error _ => .ok neutralVerdict

/-- The remainders of a text, shortest first. -/
def shortestFirst : List Char → List (List Char)
  | [] => [[]]
  | c :: t => shortestFirst t ++ [c :: t]

/-- The text `span` is a part of `content` that starts with an opening brace
and ends with a closing brace. -/
def IsBraceSpan (content span : JSString) : Prop :=
  ∃ pre mid post : JSString,
    content = pre ++ span ++ post ∧ span = Char.ofNat 123 :: (mid ++ [Char.ofNat 125])

/-- The verdict that `validateAnswer` returns once `result` is parsed: the
one built from `result`, or the neutral one when building it throws. -/
def verdictFrom (result : JSValue) : Verdict :=
  match buildVerdict result with
  | .ok verdict => verdict
  | .error _ => neutralVerdict

/-- An environment without a cached client and without `OPENAI_API_KEY`. -/
def envMissingKey : Env :=
  { openaiClient := none, apiKey := none, newClient := fun _ => constantProvider [] }

/-- The text from an opening brace (already read, depth `depth + 1`) up to
the closing brace that balances it; `acc` holds the text read so far, newest
first. -/
def balancedFrom : Nat → List Char → List Char → Option JSString
  | _, [], _ => none
  | depth, c :: rest, acc =>
    if c == Char.ofNat 125 then
      match depth with
      | 0 => some (c :: acc).reverse
      | k + 1 => balancedFrom k rest (c :: acc)
    else if c == Char.ofNat 123 then balancedFrom (depth + 1) rest (c :: acc)
    else balancedFrom depth rest (c :: acc)

/-- The first balanced span of a text: from the first opening brace that
has a balancing closing brace, up to that brace. -/
def firstBalancedSpan : JSString → Option JSString
  | [] => none
  | c :: rest =>
    if c == Char.ofNat 123 then
      match balancedFrom 0 rest [c] with
      | some span => some span
      | none => firstBalancedSpan rest
    else firstBalancedSpan rest

/-- A value is a number of the closed interval from 0 to 1. -/
def inUnitInterval : JSValue → Prop
  | .num x =>
    0 ≤ x.mantissa ∧
      (if 0 ≤ x.exponent then x.mantissa * 10 ^ x.exponent.toNat ≤ 1
       else x.mantissa ≤ 10 ^ (- x.exponent).toNat)
  | _ => False

/-- A response with a complete object followed by text with braces. -/
def objectThenBraces : JSString :=
  ("Sure: \x7b\"isCorrect\": true, \"feedback\": \"ok\", \"confidence\": 0.9\x7d " ++
   "I hope \x7bthis\x7d helps").toList

/-- The complete object inside `objectThenBraces`. -/
def completeObject : JSString :=
  "\x7b\"isCorrect\": true, \"feedback\": \"ok\", \"confidence\": 0.9\x7d".toList

/-- A response with a complete object inside plain text. -/
def objectInText : JSString :=
  ("Sure: \x7b\"isCorrect\": true, \"feedback\": \"ok\", \"confidence\": 0.9\x7d " ++
   "Good luck.").toList

/-- A response whose confidence is 5. -/
def confidenceFive : JSString :=
  "\x7b\"isCorrect\": true, \"feedback\": \"ok\", \"confidence\": 5\x7d".toList

/-- A response with an empty feedback and a confidence of 0. -/
def falsyFields : JSString :=
  "\x7b\"isCorrect\": true, \"feedback\": \"\", \"confidence\": 0\x7d".toList

/-! ## Correctness of the matcher -/

namespace RE

theorem Matches.isSuffix {n : Nat} {r : RE} {t u : List Char} (h : Matches n r t u) :
    u <:+ t := by
  induction h with
  | eps t => exact List.suffix_refl t
  | bol t _ => exact List.suffix_refl t
  | eol => exact List.suffix_refl _
  | cls p c t _ => exact List.suffix_cons c t
  | seq _ _ ih1 ih2 => exact ih2.trans ih1
  | altL _ ih => exact ih
  | altR _ ih => exact ih
  | starNil t => exact List.suffix_refl t
  | starCons _ _ ih1 ih2 => exact ih2.trans ih1

theorem iter_self (f : List Char → List (List Char)) (fuel : Nat) (t : List Char) :
    t ∈ iter f fuel t := by
  cases fuel <;> simp [iter]

theorem iter_mono (f : List Char → List (List Char)) :
    ∀ (fuel fuel2 : Nat) (t v : List Char), fuel ≤ fuel2 → v ∈ iter f fuel t →
      v ∈ iter f fuel2 t := by
  intro fuel
  induction fuel with
  | zero =>
    intro fuel2 t v _ hv
    simp only [iter, List.mem_singleton] at hv
    subst hv
    exact iter_self f fuel2 v
  | succ k ih =>
    intro fuel2 t v hle hv
    obtain ⟨k2, rfl⟩ : ∃ k2, fuel2 = k2 + 1 := ⟨fuel2 - 1, by omega⟩
    simp only [iter, List.mem_cons, List.mem_flatMap] at hv ⊢
    rcases hv with hv | ⟨u, hu, hv⟩
    · exact Or.inl hv
    · exact Or.inr ⟨u, hu, ih k2 u v (by omega) hv⟩

theorem iter_sound {n : Nat} {a : RE}
    (ih : ∀ t u, u ∈ run n a t → Matches n a t u) :
    ∀ (fuel : Nat) (t v : List Char), v ∈ iter (fun u => run n a u) fuel t →
      Matches n (star a) t v := by
  intro fuel
  induction fuel with
  | zero =>
    intro t v hv
    simp only [iter, List.mem_singleton] at hv
    subst hv
    exact Matches.starNil v
  | succ k ihk =>
    intro t v hv
    simp only [iter, List.mem_cons, List.mem_flatMap, List.mem_filter] at hv
    rcases hv with hv | ⟨u, ⟨hu, _⟩, hv⟩
    · subst hv
      exact Matches.starNil v
    · exact Matches.starCons (ih t u hu) (ihk u v hv)

theorem run_sound (n : Nat) : ∀ (r : RE) (t u : List Char), u ∈ run n r t → Matches n r t u := by
  intro r
  induction r with
  | eps =>
    intro t u h
    simp only [run, List.mem_singleton] at h
    subst h
    exact Matches.eps u
  | bol =>
    intro t u h
    simp only [run] at h
    split at h
    · rename_i hn
      simp only [List.mem_singleton] at h
      subst h
      exact Matches.bol u hn
    · simp at h
  | eol =>
    intro t u h
    simp only [run] at h
    split at h
    · rename_i hn
      simp only [List.mem_singleton] at h
      subst h
      have : u = [] := by simpa using hn
      subst this
      exact Matches.eol
    · simp at h
  | cls p =>
    intro t u h
    cases t with
    | nil => simp [run] at h
    | cons c t =>
      simp only [run] at h
      split at h
      · rename_i hp
        simp only [List.mem_singleton] at h
        subst h
        exact Matches.cls p c u hp
      · simp at h
  | seq a b iha ihb =>
    intro t u h
    simp only [run, List.mem_flatMap] at h
    obtain ⟨w, hw, hu⟩ := h
    exact Matches.seq (iha t w hw) (ihb w u hu)
  | alt a b iha ihb =>
    intro t u h
    simp only [run, List.mem_append] at h
    rcases h with h | h
    · exact Matches.altL (iha t u h)
    · exact Matches.altR (ihb t u h)
  | star a iha =>
    intro t u h
    simp only [run] at h
    exact iter_sound iha t.length t u h

theorem run_complete {n : Nat} {r : RE} {t u : List Char} (h : Matches n r t u) :
    u ∈ run n r t := by
  induction h with
  | eps t => simp [run]
  | bol t hn => simp [run, hn]
  | eol => simp [run]
  | cls p c t hp => simp [run, hp]
  | seq _ _ ih1 ih2 =>
    simp only [run, List.mem_flatMap]
    exact ⟨_, ih1, ih2⟩
  | altL _ ih => simp [run, ih]
  | altR _ ih => simp [run, ih]
  | starNil t =>
    simp only [run]
    exact iter_self _ _ _
  | @starCons a t u v h1 _ ih1 ih2 =>
    simp only [run] at ih2 ⊢
    have hsuf := h1.isSuffix
    have hle := hsuf.length_le
    rcases Nat.lt_or_ge u.length t.length with hlt | hge
    · obtain ⟨k, hk⟩ : ∃ k, t.length = k + 1 := ⟨t.length - 1, by omega⟩
      rw [hk]
      simp only [iter, List.mem_cons, List.mem_flatMap, List.mem_filter]
      refine Or.inr ⟨u, ⟨ih1, by simpa using hlt⟩, ?_⟩
      exact iter_mono _ u.length k u v (by omega) ih2
    · have : u = t := hsuf.eq_of_length (by omega)
      subst this
      exact ih2

theorem mem_run_iff {n : Nat} {r : RE} {t u : List Char} :
    u ∈ run n r t ↔ Matches n r t u :=
  ⟨run_sound n r t u, run_complete⟩

theorem test_iff {r : RE} {s : JSString} :
    test r s = true ↔ ∃ t u, t <:+ s ∧ Matches s.length r t u := by
  simp only [test, List.any_eq_true, List.mem_tails, Bool.not_eq_true', List.isEmpty_eq_false]
  constructor
  · rintro ⟨t, ht, hne⟩
    obtain ⟨u, hu⟩ := List.exists_mem_of_ne_nil _ hne
    exact ⟨t, u, ht, mem_run_iff.mp hu⟩
  · rintro ⟨t, u, ht, hm⟩
    exact ⟨t, ht, List.ne_nil_of_mem (mem_run_iff.mpr hm)⟩

end RE

/-! ## The updated history and the stored reply -/

theorem jsOr_nil (a : JSString) : jsOr a [] = a := by
  cases a <;> rfl

/-- C1: whenever `generateResponse` succeeds, `updatedHistory` is the supplied
history followed by exactly two turns: the user turn, whose content is the
mixed record of `userMessage` and `image` when an image was supplied (a
non-empty string) and the plain `userMessage` otherwise, and then the
assistant turn holding the returned reply. -/
theorem generateResponse_updatedHistory (env : Env) (problem : JSString)
    (conversationHistory : List Turn) (userMessage : JSString) (image : Option JSString)
    (r : Response)
    (h : generateResponse env problem conversationHistory userMessage image = .ok r) :
    r.updatedHistory =
      conversationHistory ++
        [Turn.user (if truthy image then Content.mixed userMessage image
                    else Content.text userMessage),
         Turn.assistant r.reply] := by
  unfold generateResponse at h
  cases hc : getOpenAIClient env with
  | error e => simp [hc] at h
  | ok openai =>
    simp only [hc] at h
    split at h
    · simp at h
    · simp only [Except.ok.injEq] at h
      subst h
      simp only [jsOr_nil]

theorem generateResponse_updatedHistory_witness :
    generateResponse (readyEnv (constantProvider "What is 2 + 3?".toList)) "2 + 3".toList
        [Turn.user (Content.text "hello".toList), Turn.assistant "Hi!".toList]
        "I think 5".toList (some "data:image/png".toList) = .ok sampleResponse ∧
    sampleResponse.updatedHistory =
      [Turn.user (Content.text "hello".toList), Turn.assistant "Hi!".toList] ++
        [Turn.user (if truthy (some "data:image/png".toList) then
             Content.mixed "I think 5".toList (some "data:image/png".toList)
           else Content.text "I think 5".toList),
         Turn.assistant sampleResponse.reply] :=
  ⟨by rfl,
   generateResponse_updatedHistory (readyEnv (constantProvider "What is 2 + 3?".toList))
     "2 + 3".toList [Turn.user (Content.text "hello".toList), Turn.assistant "Hi!".toList]
     "I think 5".toList (some "data:image/png".toList) sampleResponse (by rfl)⟩

/-- C2: when the client is obtained and the provider returns the text `raw`,
`generateResponse` succeeds, its reply is `filterDirectAnswers raw problem`,
and the last turn of `updatedHistory` is the assistant turn holding that
filtered reply. -/
theorem generateResponse_reply_filtered (env : Env) (problem : JSString)
    (conversationHistory : List Turn) (userMessage : JSString) (image : Option JSString)
    (openai : Provider) (raw : JSString)
    (hc : getOpenAIClient env = .ok openai)
    (hr : openai { model := chooseModel conversationHistory image
                   messages := buildMessages problem conversationHistory userMessage image
                   temperatureTenths := 7
                   max_tokens := 500 } = .ok raw) :
    ∃ r, generateResponse env problem conversationHistory userMessage image = .ok r ∧
      r.reply = filterDirectAnswers raw problem ∧
      r.updatedHistory.getLast? = some (Turn.assistant (filterDirectAnswers raw problem)) ∧
      ∀ turn ∈ r.updatedHistory.drop conversationHistory.length,
        turn.role = Role.assistant → turn = Turn.assistant (filterDirectAnswers raw problem) := by
  refine ⟨_, by simp only [generateResponse, hc, hr]; rfl, rfl, by simp, ?_⟩
  intro turn hmem hrole
  simp only [List.drop_left, List.mem_cons, List.mem_singleton, List.not_mem_nil, or_false] at hmem
  rcases hmem with rfl | rfl
  · simp [Turn.role] at hrole
  · rfl

theorem generateResponse_reply_filtered_witness :
    ∃ r, generateResponse (readyEnv (constantProvider "The answer is 5.".toList)) "2 + 3".toList
          [] "help".toList none = .ok r ∧
      r.reply = filterDirectAnswers "The answer is 5.".toList "2 + 3".toList ∧
      r.updatedHistory.getLast? =
        some (Turn.assistant (filterDirectAnswers "The answer is 5.".toList "2 + 3".toList)) ∧
      ∀ turn ∈ r.updatedHistory.drop ([] : List Turn).length,
        turn.role = Role.assistant →
          turn = Turn.assistant (filterDirectAnswers "The answer is 5.".toList "2 + 3".toList) :=
  generateResponse_reply_filtered (readyEnv (constantProvider "The answer is 5.".toList))
    "2 + 3".toList [] "help".toList none (constantProvider "The answer is 5.".toList)
    "The answer is 5.".toList rfl rfl

/-! ## Building and inverting matches -/

namespace RE

theorem test_of_whole {r : RE} {s : JSString} (h : Matches s.length r s []) :
    test r s = true :=
  test_iff.mpr ⟨s, [], List.suffix_refl s, h⟩

theorem matches_cat_cons {n : Nat} {a : RE} {as : List RE} {t u v : List Char}
    (h1 : Matches n a t u) (h2 : Matches n (cat as) u v) : Matches n (cat (a :: as)) t v :=
  Matches.seq h1 h2

theorem matches_opt_none {n : Nat} {a : RE} (t : List Char) : Matches n (opt a) t t :=
  Matches.altR (Matches.eps t)

theorem matches_opt_some {n : Nat} {a : RE} {t u : List Char} (h : Matches n a t u) :
    Matches n (opt a) t u :=
  Matches.altL h

theorem matches_star_cls {n : Nat} {p : Char → Bool} :
    ∀ (w t : List Char), (∀ c ∈ w, p c = true) → Matches n (star (cls p)) (w ++ t) t := by
  intro w
  induction w with
  | nil => intro t _; exact Matches.starNil t
  | cons c w ih =>
    intro t h
    exact Matches.starCons (Matches.cls p c _ (h c (List.mem_cons_self c w)))
      (ih t (fun d hd => h d (List.mem_cons_of_mem c hd)))

theorem matches_plus_cls {n : Nat} {p : Char → Bool} (w t : List Char) (hw : w ≠ [])
    (h : ∀ c ∈ w, p c = true) : Matches n (plus (cls p)) (w ++ t) t := by
  cases w with
  | nil => exact absurd rfl hw
  | cons c w =>
    exact Matches.seq (Matches.cls p c _ (h c (List.mem_cons_self c w)))
      (matches_star_cls w t (fun d hd => h d (List.mem_cons_of_mem c hd)))

theorem matches_plus_icls {n : Nat} {p : Char → Bool} (w t : List Char) (hw : w ≠ [])
    (h : ∀ c ∈ w, p c = true) : Matches n (plus (icls p)) (w ++ t) t :=
  matches_plus_cls w t hw (fun c hc => by simp [h c hc])

theorem matches_lits {n : Nat} :
    ∀ (s tmpl w t : List Char), SameUpToCase w tmpl → litsAccept s tmpl = true →
      Matches n (cat (s.map ichr)) (w ++ t) t := by
  intro s
  induction s with
  | nil =>
    intro tmpl w t hw hs
    cases tmpl with
    | nil => cases hw; exact Matches.eps t
    | cons b tmpl => simp [litsAccept] at hs
  | cons c s ih =>
    intro tmpl w t hw hs
    cases tmpl with
    | nil => simp [litsAccept] at hs
    | cons b tmpl =>
      cases hw with
      | cons hab hrest =>
        rename_i a w
        simp only [litsAccept, Bool.and_eq_true] at hs
        obtain ⟨⟨⟨h1, h2⟩, h3⟩, h4⟩ := hs
        refine Matches.seq (Matches.cls _ a _ ?_) (ih tmpl w t hrest h4)
        rcases hab with rfl | rfl | rfl
        · simpa [Bool.or_assoc] using h1
        · simpa [Bool.or_assoc] using h2
        · simpa [Bool.or_assoc] using h3

theorem matches_istr_case {n : Nat} (s : String) (tmpl w t : List Char)
    (hw : SameUpToCase w tmpl) (hs : litsAccept s.toList tmpl = true) :
    Matches n (istr s) (w ++ t) t :=
  matches_lits s.toList tmpl w t hw hs

end RE

theorem SameUpToCase.split {a b : List Char} :
    ∀ {p : List Char}, SameUpToCase p (a ++ b) →
      ∃ p1 p2, p = p1 ++ p2 ∧ SameUpToCase p1 a ∧ SameUpToCase p2 b := by
  induction a with
  | nil => intro p h; exact ⟨[], p, rfl, List.Forall₂.nil, h⟩
  | cons x a ih =>
    intro p h
    cases h with
    | cons hx hrest =>
      rename_i y p
      obtain ⟨p1, p2, rfl, h1, h2⟩ := ih hrest
      exact ⟨y :: p1, p2, rfl, List.Forall₂.cons hx h1, h2⟩

theorem dropWhile_spaces (lead l : List Char) (hl : ∀ c ∈ lead, isJsSpace c = true)
    (hh : ∀ c, l.head? = some c → isJsSpace c = false) :
    (lead ++ l).dropWhile isJsSpace = l := by
  rw [List.dropWhile_append_of_pos hl]
  cases l with
  | nil => rfl
  | cons c l => simp [List.dropWhile_cons, hh c rfl]

theorem jsTrim_sandwich (lead core trail : List Char)
    (hne : core ≠ [])
    (hl : ∀ c ∈ lead, isJsSpace c = true) (ht : ∀ c ∈ trail, isJsSpace c = true)
    (hfirst : ∀ c, core.head? = some c → isJsSpace c = false)
    (hlast : ∀ c, core.getLast? = some c → isJsSpace c = false) :
    jsTrim (lead ++ core ++ trail) = core := by
  unfold jsTrim
  rw [List.append_assoc, dropWhile_spaces lead (core ++ trail) hl]
  · rw [List.reverse_append, dropWhile_spaces trail.reverse core.reverse
      (fun c hc => ht c (List.mem_reverse.mp hc)) (by simpa using hlast), List.reverse_reverse]
  · intro c hc
    cases core with
    | nil => exact absurd rfl hne
    | cons d core =>
      simp at hc
      subst hc
      exact hfirst _ rfl

/-! ## The explicit final-answer templates -/

open RE in
theorem valueTail_matches (n : Nat) (sp : Char) (v e : List Char) (hsp : isJsSpace sp = true)
    (hv : v ≠ []) (hvc : ∀ c ∈ v, c ∈ "0123456789.-+/x=y".toList)
    (he : e = [] ∨ e = ['.'] ∨ e = ['!']) :
    Matches n (cat [plus space, plus (icls valueChar), opt (icls endChar), eol])
      (sp :: (v ++ e)) [] := by
  have hval : ∀ c ∈ "0123456789.-+/x=y".toList, valueChar c = true := by decide
  refine matches_cat_cons (matches_plus_cls [sp] (v ++ e) (by simp) (by simpa using hsp)) ?_
  refine matches_cat_cons (matches_plus_icls v e hv (fun c hc => hval c (hvc c hc))) ?_
  have hend : Matches n (opt (icls endChar)) e [] := by
    rcases he with rfl | rfl | rfl
    · exact matches_opt_none []
    · exact matches_opt_some (Matches.cls _ '.' [] (by decide))
    · exact matches_opt_some (Matches.cls _ '!' [] (by decide))
  exact matches_cat_cons hend (matches_cat_cons Matches.eol (Matches.eps []))

theorem template_core_trim (lead trail p v e : List Char) (tmpl : JSString)
    (ht : tmpl ∈ answerTemplates) (hp : SameUpToCase p tmpl)
    (hv : v ≠ []) (hvc : ∀ c ∈ v, c ∈ "0123456789.-+/x=y".toList)
    (he : e = [] ∨ e = ['.'] ∨ e = ['!'])
    (hl : ∀ c ∈ lead, isJsSpace c = true) (htr : ∀ c ∈ trail, isJsSpace c = true) :
    jsTrim (lead ++ (p ++ ' ' :: (v ++ e)) ++ trail) = p ++ ' ' :: (v ++ e) := by
  have hval : ∀ c ∈ "0123456789.-+/x=y".toList, isJsSpace c = false := by decide
  have hhead : ∀ t ∈ answerTemplates, ∃ b rest, t = b :: rest ∧ isJsSpace b = false ∧
      isJsSpace b.toUpper = false ∧ isJsSpace b.toLower = false := by
    intro t h
    simp only [answerTemplates, List.mem_cons, List.mem_singleton, List.not_mem_nil,
      or_false] at h
    rcases h with rfl | rfl | rfl | rfl | rfl | rfl <;> exact ⟨_, _, rfl, by decide⟩
  apply jsTrim_sandwich _ _ _ (by simp) hl htr
  · intro c hc
    obtain ⟨b, rest, rfl, h1, h2, h3⟩ := hhead tmpl ht
    cases hp with
    | cons hab _ =>
      simp only [List.cons_append, List.head?_cons, Option.some.injEq] at hc
      subst hc
      rcases hab with rfl | rfl | rfl <;> assumption
  · intro c hc
    have hne : (' ' :: (v ++ e)) ≠ [] := by simp
    rw [List.getLast?_append_of_ne_nil _ hne] at hc
    have hne2 : v ++ e ≠ [] := by simp [hv]
    have hc2 : (v ++ e).getLast? = some c := by
      cases hve : v ++ e with
      | nil => exact absurd hve hne2
      | cons d l => rw [hve] at hc; simpa [List.getLast?_cons_cons] using hc
    rcases he with rfl | rfl | rfl
    · rw [List.append_nil] at hc2
      exact hval c (hvc c (List.mem_of_getLast?_eq_some hc2))
    · rw [List.getLast?_concat] at hc2
      cases hc2
      decide
    · rw [List.getLast?_concat] at hc2
      cases hc2
      decide

open RE in
theorem template_matches (p v e : List Char) (tmpl : JSString)
    (ht : tmpl ∈ answerTemplates) (hp : SameUpToCase p tmpl)
    (hv : v ≠ []) (hvc : ∀ c ∈ v, c ∈ "0123456789.-+/x=y".toList)
    (he : e = [] ∨ e = ['.'] ∨ e = ['!']) :
    explicitFinalAnswerPatterns.any (fun pattern => pattern.test (p ++ ' ' :: (v ++ e)))
      = true := by
  have htail := fun n => valueTail_matches n ' ' v e (by decide) hv hvc he
  rw [List.any_eq_true]
  simp only [answerTemplates, List.mem_cons, List.mem_singleton, List.not_mem_nil,
    or_false] at ht
  rcases ht with rfl | rfl | rfl | rfl | rfl | rfl
  · -- The answer is
    obtain ⟨p1, p2, rfl, h1, h2⟩ :=
      SameUpToCase.split (a := "The ".toList) (b := "answer is".toList) hp
    refine ⟨_, List.Mem.head _, test_of_whole ?_⟩
    rw [List.append_assoc]
    exact matches_cat_cons (Matches.bol _ rfl)
      (matches_cat_cons (matches_istr_case "the " _ p1 _ h1 (by decide))
        (matches_cat_cons (matches_opt_none _)
          (matches_cat_cons (matches_istr_case "answer is" _ p2 _ h2 (by decide))
            (htail _))))
  · -- The final answer is
    obtain ⟨p1, p23, rfl, h1, h23⟩ :=
      SameUpToCase.split (a := "The ".toList) (b := "final answer is".toList) hp
    obtain ⟨p2, p3, rfl, h2, h3⟩ :=
      SameUpToCase.split (a := "final ".toList) (b := "answer is".toList) h23
    refine ⟨_, List.Mem.head _, test_of_whole ?_⟩
    rw [List.append_assoc, List.append_assoc]
    exact matches_cat_cons (Matches.bol _ rfl)
      (matches_cat_cons (matches_istr_case "the " _ p1 _ h1 (by decide))
        (matches_cat_cons (matches_opt_some (matches_istr_case "final " _ p2 _ h2 (by decide)))
          (matches_cat_cons (matches_istr_case "answer is" _ p3 _ h3 (by decide))
            (htail _))))
  · -- The solution is
    refine ⟨_, List.Mem.tail _ (List.Mem.head _), test_of_whole ?_⟩
    exact matches_cat_cons (Matches.bol _ rfl)
      (matches_cat_cons (matches_istr_case "the solution is" _ p _ hp (by decide))
        (htail _))
  · -- It's
    obtain ⟨p1, p23, rfl, h1, h23⟩ :=
      SameUpToCase.split (a := "It".toList) (b := [apostrophe, 's']) hp
    obtain ⟨p2, p3, rfl, h2, h3⟩ :=
      SameUpToCase.split (a := [apostrophe]) (b := ['s']) h23
    refine ⟨_, List.Mem.tail _ (List.Mem.tail _ (List.Mem.head _)), test_of_whole ?_⟩
    rw [List.append_assoc, List.append_assoc]
    have hq : Matches (p1 ++ (p2 ++ (p3 ++ ' ' :: (v ++ e)))).length (ichr apostrophe)
        (p2 ++ (p3 ++ ' ' :: (v ++ e))) (p3 ++ ' ' :: (v ++ e)) := by
      cases h2 with
      | cons hab hnil =>
        cases hnil
        refine Matches.cls _ _ _ ?_
        rcases hab with rfl | rfl | rfl <;> decide
    exact matches_cat_cons (Matches.bol _ rfl)
      (matches_cat_cons (matches_istr_case "it" _ p1 _ h1 (by decide))
        (matches_cat_cons (matches_opt_some hq)
          (matches_cat_cons (matches_istr_case "s" _ p3 _ h3 (by decide))
            (htail _))))
  · -- So the answer is
    refine ⟨_, List.Mem.tail _ (List.Mem.tail _ (List.Mem.tail _ (List.Mem.head _))),
      test_of_whole ?_⟩
    exact matches_cat_cons (Matches.bol _ rfl)
      (matches_cat_cons (matches_istr_case "so the answer is" _ p _ hp (by decide))
        (htail _))
  · -- Therefore, the answer is
    obtain ⟨p1, q1, rfl, h1, r1⟩ :=
      SameUpToCase.split (a := "Therefore".toList) (b := ", the answer is".toList) hp
    obtain ⟨p2, q2, rfl, h2, r2⟩ :=
      SameUpToCase.split (a := [',']) (b := " the answer is".toList) r1
    obtain ⟨p3, q3, rfl, h3, r3⟩ :=
      SameUpToCase.split (a := [' ']) (b := "the answer is".toList) r2
    obtain ⟨p4, p5, rfl, h4, h5⟩ :=
      SameUpToCase.split (a := "the answer".toList) (b := " is".toList) r3
    refine ⟨_, List.Mem.tail _ (List.Mem.tail _ (List.Mem.tail _ (List.Mem.tail _
      (List.Mem.head _)))), test_of_whole ?_⟩
    simp only [List.append_assoc]
    have hcomma : ∀ t, Matches (p1 ++ (p2 ++ (p3 ++ (p4 ++ (p5 ++ ' ' :: (v ++ e)))))).length
        (ichr ',') (p2 ++ t) t := by
      intro t
      cases h2 with
      | cons hab hnil =>
        cases hnil
        refine Matches.cls _ _ _ ?_
        rcases hab with rfl | rfl | rfl <;> decide
    have hblank : ∀ t, Matches (p1 ++ (p2 ++ (p3 ++ (p4 ++ (p5 ++ ' ' :: (v ++ e)))))).length
        (plus space) (p3 ++ t) t := by
      intro t
      cases h3 with
      | cons hab hnil =>
        cases hnil
        refine matches_plus_cls [_] t (by simp) ?_
        intro c hc
        simp only [List.mem_singleton] at hc
        subst hc
        rcases hab with rfl | rfl | rfl <;> decide
    exact matches_cat_cons (Matches.bol _ rfl)
      (matches_cat_cons (matches_istr_case "therefore" _ p1 _ h1 (by decide))
        (matches_cat_cons (matches_opt_some (hcomma _))
          (matches_cat_cons (hblank _)
            (matches_cat_cons (Matches.altL (matches_istr_case "the answer" _ p4 _ h4 (by decide)))
              (matches_cat_cons (matches_istr_case " is" _ p5 _ h5 (by decide))
                (htail _))))))

/-- C3: for every value token `v` (non-empty, over digits and `.-+/x=y`), each
of the replies "The answer is v", "The final answer is v", "The solution is v",
"It's v", "So the answer is v" and "Therefore, the answer is v", with the
letters of the sentence in any case, an optional final `.` or `!`, and white
space around it, is replaced by the redirect message, whatever its length. -/
theorem filterDirectAnswers_templates (lead trail p v e problem : JSString) (tmpl : JSString)
    (ht : tmpl ∈ answerTemplates) (hp : SameUpToCase p tmpl)
    (hv : v ≠ []) (hvc : ∀ c ∈ v, c ∈ "0123456789.-+/x=y".toList)
    (he : e = [] ∨ e = ['.'] ∨ e = ['!'])
    (hl : ∀ c ∈ lead, isJsSpace c = true) (htr : ∀ c ∈ trail, isJsSpace c = true) :
    filterDirectAnswers (lead ++ (p ++ ' ' :: (v ++ e)) ++ trail) problem = redirectMessage := by
  have htrim := template_core_trim lead trail p v e tmpl ht hp hv hvc he hl htr
  have hany := template_matches p v e tmpl ht hp hv hvc he
  simp only [filterDirectAnswers, htrim, hany, if_true]

theorem filterDirectAnswers_templates_witness :
    filterDirectAnswers "The answer is 5.".toList "2 + 3".toList = redirectMessage ∧
    filterDirectAnswers " \tTHEREFORE, the Answer is x=3/4!\n".toList "4x = 3".toList
      = redirectMessage :=
  ⟨filterDirectAnswers_templates [] [] "The answer is".toList "5".toList ['.'] "2 + 3".toList
     "The answer is".toList (by decide) (by decide) (by decide) (by decide) (by decide)
     (by decide) (by decide),
   filterDirectAnswers_templates " \t".toList "\n".toList "THEREFORE, the Answer is".toList
     "x=3/4".toList ['!'] "4x = 3".toList "Therefore, the answer is".toList
     (by decide) (by decide) (by decide) (by decide) (by decide) (by decide) (by decide)⟩

/-! ## Bare numbers -/

namespace RE

theorem anchored_first {n : Nat} {p : Char → Bool} {a b : RE} {s t u : List Char}
    (hs : t <:+ s) (hn : n = s.length)
    (h : Matches n (seq bol (seq (seq (cls p) a) b)) t u) :
    ∃ c rest, s = c :: rest ∧ p c = true := by
  cases h with
  | seq h1 h2 =>
    cases h1 with
    | bol _ hlen =>
      cases h2 with
      | seq h3 _ =>
        cases h3 with
        | seq h5 _ =>
          cases h5 with
          | cls _ _ _ hp =>
            exact ⟨_, _, (hs.eq_of_length (by rw [hlen, hn])).symm, hp⟩

end RE

open RE in
theorem explicit_first_letter (s : JSString)
    (h : explicitFinalAnswerPatterns.any (fun pattern => pattern.test s) = true) :
    ∃ c rest, s = c :: rest ∧
      (isLetter 't' c = true ∨ isLetter 'i' c = true ∨ isLetter 's' c = true) := by
  rw [List.any_eq_true] at h
  obtain ⟨r, hr, ht⟩ := h
  obtain ⟨t, u, hsuf, hm⟩ := test_iff.mp ht
  simp only [explicitFinalAnswerPatterns, List.mem_cons, List.mem_singleton, List.not_mem_nil,
    or_false] at hr
  rcases hr with rfl | rfl | rfl | rfl | rfl
  · obtain ⟨c, rest, h1, h2⟩ := anchored_first hsuf rfl hm
    exact ⟨c, rest, h1, Or.inl h2⟩
  · obtain ⟨c, rest, h1, h2⟩ := anchored_first hsuf rfl hm
    exact ⟨c, rest, h1, Or.inl h2⟩
  · obtain ⟨c, rest, h1, h2⟩ := anchored_first hsuf rfl hm
    exact ⟨c, rest, h1, Or.inr (Or.inl h2)⟩
  · obtain ⟨c, rest, h1, h2⟩ := anchored_first hsuf rfl hm
    exact ⟨c, rest, h1, Or.inr (Or.inr h2)⟩
  · obtain ⟨c, rest, h1, h2⟩ := anchored_first hsuf rfl hm
    exact ⟨c, rest, h1, Or.inl h2⟩

open RE in
theorem directAnswer_has_x (s : JSString) (h : directAnswerPattern.test s = true) :
    ∃ c ∈ s, isLetter 'x' c = true := by
  obtain ⟨t, u, hsuf, hm⟩ := test_iff.mp h
  cases hm with
  | seq h1 h2 =>
    cases h2 with
    | seq h3 h4 =>
      cases h4 with
      | seq h5 _ =>
        cases h5 with
        | cls _ _ _ hp =>
          have hsub := (h3.isSuffix.trans h1.isSuffix).trans hsuf
          exact ⟨_, hsub.subset (List.mem_cons_self _ _), hp⟩

open RE in
theorem justNumber_matches (num e : List Char) (hn : num ≠ [])
    (hc : ∀ c ∈ num, c ∈ "0123456789.-+/".toList) (he : e = [] ∨ e = ['.'] ∨ e = ['!']) :
    justNumberPattern.test (num ++ e) = true := by
  have hnum : ∀ c ∈ "0123456789.-+/".toList, numberChar c = true := by decide
  have hend : Matches (num ++ e).length (opt (icls endChar)) e [] := by
    rcases he with rfl | rfl | rfl
    · exact matches_opt_none []
    · exact matches_opt_some (Matches.cls _ '.' [] (by decide))
    · exact matches_opt_some (Matches.cls _ '!' [] (by decide))
  exact test_of_whole (matches_cat_cons (Matches.bol _ rfl)
    (matches_cat_cons (matches_plus_icls num e hn (fun c h => hnum c (hc c h)))
      (matches_cat_cons hend (matches_cat_cons Matches.eol (Matches.eps [])))))

theorem number_token_facts (num e : List Char) (hn : num ≠ [])
    (hc : ∀ c ∈ num, c ∈ "0123456789.-+/".toList) (he : e = [] ∨ e = ['.'] ∨ e = ['!']) :
    explicitFinalAnswerPatterns.any (fun pattern => pattern.test (num ++ e)) = false ∧
    directAnswerPattern.test (num ++ e) = false ∧
    num ++ e ≠ redirectMessage := by
  have hfirst : ∀ c ∈ "0123456789.-+/".toList,
      isLetter 't' c = false ∧ isLetter 'i' c = false ∧ isLetter 's' c = false ∧
        c ≠ 'I' := by decide
  have hx : ∀ c ∈ "0123456789.-+/".toList, isLetter 'x' c = false := by decide
  obtain ⟨d, num2, rfl⟩ := List.exists_cons_of_ne_nil hn
  have hd := hfirst d (hc d (List.mem_cons_self d num2))
  refine ⟨?_, ?_, ?_⟩
  · rw [Bool.eq_false_iff]
    intro h
    obtain ⟨c, rest, h1, h2⟩ := explicit_first_letter _ h
    simp only [List.cons_append, List.cons.injEq] at h1
    obtain ⟨rfl, _⟩ := h1
    rcases h2 with h2 | h2 | h2
    · rw [hd.1] at h2; cases h2
    · rw [hd.2.1] at h2; cases h2
    · rw [hd.2.2.1] at h2; cases h2
  · rw [Bool.eq_false_iff]
    intro h
    obtain ⟨c, hmem, hcx⟩ := directAnswer_has_x _ h
    rcases List.mem_append.mp hmem with h1 | h1
    · rw [hx c (hc c h1)] at hcx
      cases hcx
    · rcases he with rfl | rfl | rfl
      · cases h1
      · simp only [List.mem_singleton] at h1
        subst h1
        revert hcx
        decide
      · simp only [List.mem_singleton] at h1
        subst h1
        revert hcx
        decide
  · intro h
    have hr : redirectMessage.head? = some 'I' := by decide
    have h2 := congrArg List.head? h
    rw [hr] at h2
    simp only [List.cons_append, List.head?_cons, Option.some.injEq] at h2
    exact hd.2.2.2 h2

/-- C4: for every reply whose trimmed form is only a numeric token (one or
more of the digits and `.-+/`, then at most one `.` or `!`), the filter
returns the redirect message if and only if the trimmed length is under 20,
and otherwise returns the reply unchanged. -/
theorem filterDirectAnswers_bare_number (reply problem num e : JSString)
    (ht : jsTrim reply = num ++ e) (hn : num ≠ [])
    (hc : ∀ c ∈ num, c ∈ "0123456789.-+/".toList) (he : e = [] ∨ e = ['.'] ∨ e = ['!']) :
    (filterDirectAnswers reply problem = redirectMessage ↔ jsLength (jsTrim reply) < 20) ∧
    (¬ jsLength (jsTrim reply) < 20 → filterDirectAnswers reply problem = reply) := by
  obtain ⟨hexp, hdir, hne⟩ := number_token_facts num e hn hc he
  have hjust := justNumber_matches num e hn hc he
  have htrimRedirect : jsTrim redirectMessage = redirectMessage := by decide
  have key : filterDirectAnswers reply problem =
      if jsLength (jsTrim reply) < 20 then redirectMessage else reply := by
    simp only [filterDirectAnswers, ht, hexp, hjust, hdir, Bool.false_and, Bool.true_and,
      Bool.false_eq_true, if_false, decide_eq_true_eq]
  rw [key]
  by_cases hlen : jsLength (jsTrim reply) < 20
  · simp [hlen]
  · simp only [hlen, if_false, iff_false, not_false_eq_true, forall_true_left, and_true]
    intro h
    rw [h, htrimRedirect] at ht
    exact hne ht.symm

theorem filterDirectAnswers_bare_number_witness :
    filterDirectAnswers "42".toList "6 * 7".toList = redirectMessage ∧
    filterDirectAnswers " 3.14159-2.71828+1/100000! ".toList "6 * 7".toList
      = " 3.14159-2.71828+1/100000! ".toList :=
  ⟨(filterDirectAnswers_bare_number "42".toList "6 * 7".toList "42".toList [] (by decide)
      (by decide) (by decide) (by decide)).1.mpr (by decide),
   (filterDirectAnswers_bare_number " 3.14159-2.71828+1/100000! ".toList "6 * 7".toList
      "3.14159-2.71828+1/100000".toList ['!'] (by decide) (by decide) (by decide)
      (by decide)).2 (by decide)⟩

/-! ## Trailing variable assignments -/

/-- C5, as stated, fails: the reply "So x = 5" ends in the assignment
`x = 5` and has 8 characters, yet the filter returns it unchanged. -/
theorem filterDirectAnswers_assignment_counterexample :
    EndsInAssignment (jsTrim "So x = 5".toList) ∧
    jsLength (jsTrim "So x = 5".toList) < 30 ∧
    filterDirectAnswers "So x = 5".toList "x + 2 = 7".toList = "So x = 5".toList ∧
    filterDirectAnswers "So x = 5".toList "x + 2 = 7".toList ≠ redirectMessage :=
  ⟨⟨"So ".toList, [' '], [' '], ['5'], [], by decide, by decide, by decide, by decide,
    by decide, by decide⟩, by decide, by decide, by decide⟩

open RE in
theorem directAnswer_matches (pre ws0 ws1 ws2 num e : List Char)
    (hpre : pre = [] ∨ pre.getLast? = some '.')
    (h0 : ∀ c ∈ ws0, isJsSpace c = true) (h1 : ∀ c ∈ ws1, isJsSpace c = true)
    (h2 : ∀ c ∈ ws2, isJsSpace c = true)
    (hn : num ≠ []) (hc : ∀ c ∈ num, c ∈ "0123456789.-+/".toList)
    (he : e = [] ∨ e = ['.'] ∨ e = ['!']) :
    directAnswerPattern.test
      (pre ++ (ws0 ++ 'x' :: (ws1 ++ '=' :: (ws2 ++ (num ++ e))))) = true := by
  have hnum : ∀ c ∈ "0123456789.-+/".toList, numberChar c = true := by decide
  have hend : ∀ n, Matches n (opt (icls endChar)) e [] := by
    intro n
    rcases he with rfl | rfl | rfl
    · exact matches_opt_none []
    · exact matches_opt_some (Matches.cls _ '.' [] (by decide))
    · exact matches_opt_some (Matches.cls _ '!' [] (by decide))
  have hrest : ∀ n, Matches n
      (cat [star space, ichr 'x', star space, ichr '=', star space,
            plus (icls numberChar), star space, opt (icls endChar), star space, eol])
      (ws0 ++ 'x' :: (ws1 ++ '=' :: (ws2 ++ (num ++ e)))) [] := by
    intro n
    exact matches_cat_cons (matches_star_cls ws0 _ h0)
      (matches_cat_cons (Matches.cls _ 'x' _ (by decide))
        (matches_cat_cons (matches_star_cls ws1 _ h1)
          (matches_cat_cons (Matches.cls _ '=' _ (by decide))
            (matches_cat_cons (matches_star_cls ws2 _ h2)
              (matches_cat_cons (matches_plus_icls num e hn (fun c h => hnum c (hc c h)))
                (matches_cat_cons (Matches.starNil e)
                  (matches_cat_cons (hend n)
                    (matches_cat_cons (Matches.starNil [])
                      (matches_cat_cons Matches.eol (Matches.eps []))))))))))
  rcases hpre with rfl | hdot
  · exact test_of_whole (matches_cat_cons (Matches.altL (Matches.bol _ rfl)) (hrest _))
  · obtain ⟨pre2, rfl⟩ := List.getLast?_eq_some_iff.mp hdot
    refine test_iff.mpr ⟨'.' :: (ws0 ++ 'x' :: (ws1 ++ '=' :: (ws2 ++ (num ++ e)))), [],
      ⟨pre2, by simp⟩, ?_⟩
    exact matches_cat_cons (Matches.altR (Matches.cls _ '.' _ (by decide))) (hrest _)

/-- C5, amended: when the trimmed reply is under 30 characters and ends in an
assignment `x = <number>` (optional white space around `=`, optional final
`.` or `!`) that starts the trimmed reply or comes right after a `.`
(optional white space in between), the filter returns the redirect message. -/
theorem filterDirectAnswers_assignment (reply problem pre ws0 ws1 ws2 num e : JSString)
    (ht : jsTrim reply = pre ++ (ws0 ++ 'x' :: (ws1 ++ '=' :: (ws2 ++ (num ++ e)))))
    (hpre : pre = [] ∨ pre.getLast? = some '.')
    (h0 : ∀ c ∈ ws0, isJsSpace c = true) (h1 : ∀ c ∈ ws1, isJsSpace c = true)
    (h2 : ∀ c ∈ ws2, isJsSpace c = true)
    (hn : num ≠ []) (hc : ∀ c ∈ num, c ∈ "0123456789.-+/".toList)
    (he : e = [] ∨ e = ['.'] ∨ e = ['!'])
    (hlen : jsLength (jsTrim reply) < 30) :
    filterDirectAnswers reply problem = redirectMessage := by
  have hdir := directAnswer_matches pre ws0 ws1 ws2 num e hpre h0 h1 h2 hn hc he
  rw [← ht] at hdir
  simp only [filterDirectAnswers, hdir, hlen, Bool.true_and, decide_True, if_true]
  split
  · rfl
  · split <;> rfl

theorem filterDirectAnswers_assignment_witness :
    filterDirectAnswers "Good. x = 5".toList "x + 2 = 7".toList = redirectMessage ∧
    filterDirectAnswers "x=5!".toList "x + 2 = 7".toList = redirectMessage :=
  ⟨filterDirectAnswers_assignment "Good. x = 5".toList "x + 2 = 7".toList "Good.".toList
     [' '] [' '] [' '] ['5'] [] (by decide) (by decide) (by decide) (by decide) (by decide)
     (by decide) (by decide) (by decide) (by decide),
   filterDirectAnswers_assignment "x=5!".toList "x + 2 = 7".toList [] [] [] [] ['5'] ['!']
     (by decide) (by decide) (by decide) (by decide) (by decide) (by decide) (by decide)
     (by decide) (by decide)⟩

/-! ## Conservativeness -/

/-- C6: a reply whose trimmed length is at least 30 and whose trimmed text
matches none of the explicit final-answer patterns is returned exactly as
given. -/
theorem filterDirectAnswers_long_unchanged (reply problem : JSString)
    (hlen : 30 ≤ jsLength (jsTrim reply))
    (hnot : ∀ pattern ∈ explicitFinalAnswerPatterns, pattern.test (jsTrim reply) = false) :
    filterDirectAnswers reply problem = reply := by
  have hany : explicitFinalAnswerPatterns.any (fun pattern => pattern.test (jsTrim reply))
      = false := by
    rw [List.any_eq_false]
    intro pattern hp
    simp [hnot pattern hp]
  have h20 : ¬ jsLength (jsTrim reply) < 20 := by omega
  have h30 : ¬ jsLength (jsTrim reply) < 30 := by omega
  simp [filterDirectAnswers, hany, h20, h30]

theorem filterDirectAnswers_long_unchanged_witness :
    filterDirectAnswers
        "I think the answer might be 5 but let's check by substituting back.".toList
        "x + 2 = 7".toList
      = "I think the answer might be 5 but let's check by substituting back.".toList :=
  filterDirectAnswers_long_unchanged
    "I think the answer might be 5 but let's check by substituting back.".toList
    "x + 2 = 7".toList (by decide)
    (by
      have h : explicitFinalAnswerPatterns.all (fun pattern => !pattern.test (jsTrim
          "I think the answer might be 5 but let's check by substituting back.".toList))
          = true := by decide
      intro pattern hp
      simpa using List.all_eq_true.mp h pattern hp)

/-! ## The stuck detector -/

theorem countStuck_eq (turns : List Turn) :
    ∀ n, countStuck turns n = n + stuckRun turns := by
  induction turns with
  | nil => intro n; simp [countStuck, stuckRun]
  | cons turn older ih =>
    intro n
    cases turn with
    | user content =>
      cases content with
      | text s =>
        by_cases h : matchesStuck s = true
        · simp [countStuck, stuckRun, userTurnText, userText, h, ih, List.takeWhile_cons]
          omega
        · simp [countStuck, stuckRun, userTurnText, userText, h, List.takeWhile_cons]
      | mixed text image =>
        by_cases h : matchesStuck text = true
        · simp [countStuck, stuckRun, userTurnText, userText, jsOr_nil, h, ih,
            List.takeWhile_cons]
          omega
        · simp [countStuck, stuckRun, userTurnText, userText, jsOr_nil, h,
            List.takeWhile_cons]
    | assistant s =>
      simp only [countStuck, ite_self, ih]
      simp [stuckRun, userTurnText]
    | system s =>
      simp only [countStuck, ih]
      simp [stuckRun, userTurnText]

theorem detectStuck_stuckCount (conversationHistory : List Turn) :
    (detectStuck conversationHistory).stuckCount =
      stuckRun (conversationHistory.drop (conversationHistory.length - 6)).reverse := by
  simp [detectStuck, sliceLast, countStuck_eq]

theorem stuckRun_le_length (turns : List Turn) : stuckRun turns ≤ turns.length := by
  unfold stuckRun
  exact ((List.takeWhile_sublist _).length_le).trans (List.length_filterMap_le _ _)

theorem stuckRun_append_ge (recent older : List Turn) :
    stuckRun recent ≤ stuckRun (recent ++ older) := by
  unfold stuckRun
  rw [List.filterMap_append]
  generalize recent.filterMap userTurnText = a
  generalize older.filterMap userTurnText = b
  induction a with
  | nil => simp
  | cons x a ih =>
    by_cases h : matchesStuck x = true
    · simp only [List.cons_append, List.takeWhile_cons, h, if_true, List.length_cons]
      omega
    · simp [List.takeWhile_cons, h]

theorem sliceLast_idem (k : Nat) (h : List Turn) : sliceLast k (sliceLast k h) = sliceLast k h := by
  unfold sliceLast
  have : (h.drop (h.length - k)).length - k = 0 := by
    rw [List.length_drop]
    omega
  rw [this, List.drop_zero]

theorem detectStuck_sliceLast (h : List Turn) : detectStuck (sliceLast 6 h) = detectStuck h := by
  unfold detectStuck
  rw [sliceLast_idem]

/-- C7: the `stuckCount` of `detectStuck` is the number of user turns met when
scanning the last 6 turns from the newest to the oldest, skipping the turns
that are not user turns, before the first user turn whose text matches none
of the nine stuck patterns; the history of the example gives 2 and stuck, the
empty history gives 0 and not stuck. -/
theorem detectStuck_counts_tail_run :
    (∀ conversationHistory : List Turn,
      (detectStuck conversationHistory).stuckCount =
        stuckRun (conversationHistory.drop (conversationHistory.length - 6)).reverse) ∧
    stuckPatterns.length = 9 ∧
    (detectStuck exampleHistory).stuckCount = 2 ∧
    (detectStuck exampleHistory).isStuck = true ∧
    (detectStuck []).stuckCount = 0 ∧
    (detectStuck []).isStuck = false :=
  ⟨detectStuck_stuckCount, by rfl, by decide, by decide, by decide, by decide⟩

/-- C8: the diagnostic of `detectStuck` has `isStuck` true exactly when its
`stuckCount` is at least 2. -/
theorem detectStuck_isStuck_iff (conversationHistory : List Turn) :
    (detectStuck conversationHistory).isStuck = true ↔
      (detectStuck conversationHistory).stuckCount ≥ 2 := by
  simp [detectStuck]

/-- C9: when fewer than 2 consecutive user turns at the tail of the whole
history are stuck signals (counting back from the newest user turn, skipping
the other turns, up to the first user turn that is not one), `detectStuck`
returns `isStuck = false`. -/
theorem detectStuck_not_stuck (conversationHistory : List Turn)
    (hlt : stuckRun conversationHistory.reverse < 2) :
    (detectStuck conversationHistory).isStuck = false := by
  have hle : stuckRun (conversationHistory.drop (conversationHistory.length - 6)).reverse ≤
      stuckRun conversationHistory.reverse := by
    have hsplit := List.take_append_drop (conversationHistory.length - 6) conversationHistory
    have hrev := congrArg List.reverse hsplit
    rw [List.reverse_append] at hrev
    rw [← hrev]
    exact stuckRun_append_ge _ _
  have hcount := detectStuck_stuckCount conversationHistory
  have hiff : (detectStuck conversationHistory).isStuck =
      decide ((detectStuck conversationHistory).stuckCount ≥ 2) := rfl
  rw [hiff, hcount, decide_eq_false_iff_not]
  omega

theorem detectStuck_not_stuck_witness :
    stuckRun progressingHistory.reverse < 2 ∧
    (detectStuck progressingHistory).isStuck = false :=
  ⟨by decide, detectStuck_not_stuck progressingHistory (by decide)⟩

/-- C10: `detectStuck` depends only on the last 6 turns: its result on a
history is its result on the last 6 turns of that history, any turns put
before six given turns leave the result as it is, and `stuckCount` is at
most 6. -/
theorem detectStuck_last_six :
    (∀ conversationHistory : List Turn,
      detectStuck conversationHistory =
        detectStuck (conversationHistory.drop (conversationHistory.length - 6))) ∧
    (∀ (older : List Turn) (t1 t2 t3 t4 t5 t6 : Turn),
      detectStuck (older ++ [t1, t2, t3, t4, t5, t6]) = detectStuck [t1, t2, t3, t4, t5, t6]) ∧
    (∀ conversationHistory : List Turn, (detectStuck conversationHistory).stuckCount ≤ 6) := by
  refine ⟨fun h => (detectStuck_sliceLast h).symm, ?_, ?_⟩
  · intro older t1 t2 t3 t4 t5 t6
    rw [← detectStuck_sliceLast (older ++ [t1, t2, t3, t4, t5, t6])]
    have : sliceLast 6 (older ++ [t1, t2, t3, t4, t5, t6]) = [t1, t2, t3, t4, t5, t6] := by
      unfold sliceLast
      have hlen : (older ++ [t1, t2, t3, t4, t5, t6]).length - 6 = older.length := by
        simp
      rw [hlen, List.drop_left]
    rw [this]
  · intro h
    rw [detectStuck_stuckCount]
    refine (stuckRun_le_length _).trans ?_
    rw [List.length_reverse, List.length_drop]
    omega

/-! ## What the stuck detector reads -/

theorem detectStuck_ext (a b : List Turn)
    (h : (detectStuck a).stuckCount = (detectStuck b).stuckCount) :
    detectStuck a = detectStuck b := by
  simp only [detectStuck] at h ⊢
  rw [h]

theorem stuckRun_view (turns : List Turn) :
    stuckRun turns =
      (((turns.map stuckView).filterMap Prod.snd).takeWhile matchesStuck).length := by
  unfold stuckRun
  rw [List.filterMap_map]
  rfl

/-- C11: the result of `detectStuck` depends only on the roles of the turns
and on the texts of the user turns: two histories with the same roles and the
same user texts, whatever the contents of their assistant turns (with or
without hint keywords) and whatever the images of their mixed user turns,
get the same diagnostic. -/
theorem detectStuck_depends_on_view (h1 h2 : List Turn)
    (hview : h1.map stuckView = h2.map stuckView) :
    detectStuck h1 = detectStuck h2 := by
  apply detectStuck_ext
  rw [detectStuck_stuckCount, detectStuck_stuckCount, stuckRun_view, stuckRun_view]
  have hlen : h1.length = h2.length := by
    have := congrArg List.length hview
    simpa using this
  rw [List.map_reverse, List.map_reverse, List.map_drop, List.map_drop, hview, hlen]

theorem detectStuck_depends_on_view_witness :
    hasHintKeyword "What is 7 - 2?".toList = false ∧
    hasHintKeyword "Here is a hint: try 7 - 2.".toList = true ∧
    plainRepliesHistory ≠ hintRepliesHistory ∧
    detectStuck plainRepliesHistory = detectStuck hintRepliesHistory :=
  ⟨by decide, by decide, by decide,
   detectStuck_depends_on_view plainRepliesHistory hintRepliesHistory (by decide)⟩

/-! ## The diagnostic returned with the reply -/

/-- C12: the `stuckInfo` of a successful `generateResponse` is
`detectStuck` of the supplied history, so that any two successful calls on
the same history, whatever their message, image, problem and provider,
return the same `stuckInfo`. -/
theorem generateResponse_stuckInfo (env : Env) (problem : JSString)
    (conversationHistory : List Turn) (userMessage : JSString) (image : Option JSString)
    (r : Response)
    (h : generateResponse env problem conversationHistory userMessage image = .ok r) :
    r.stuckInfo = detectStuck conversationHistory ∧
    ∀ (env2 : Env) (problem2 userMessage2 : JSString) (image2 : Option JSString) (r2 : Response),
      generateResponse env2 problem2 conversationHistory userMessage2 image2 = .ok r2 →
        r2.stuckInfo = r.stuckInfo := by
  have key : ∀ (env : Env) (problem userMessage : JSString) (image : Option JSString)
      (r : Response),
      generateResponse env problem conversationHistory userMessage image = .ok r →
        r.stuckInfo = detectStuck conversationHistory := by
    intro env problem userMessage image r h
    unfold generateResponse at h
    cases hc : getOpenAIClient env with
    | error e => simp [hc] at h
    | ok openai =>
      simp only [hc] at h
      split at h
      · simp at h
      · simp only [Except.ok.injEq] at h
        subst h
        rfl
  refine ⟨key env problem userMessage image r h, ?_⟩
  intro env2 problem2 userMessage2 image2 r2 h2
  rw [key env2 problem2 userMessage2 image2 r2 h2, key env problem userMessage image r h]

theorem generateResponse_stuckInfo_witness :
    sampleResponse.stuckInfo =
      detectStuck [Turn.user (Content.text "hello".toList), Turn.assistant "Hi!".toList] ∧
    ∀ (env2 : Env) (problem2 userMessage2 : JSString) (image2 : Option JSString) (r2 : Response),
      generateResponse env2 problem2
          [Turn.user (Content.text "hello".toList), Turn.assistant "Hi!".toList]
          userMessage2 image2 = .ok r2 →
        r2.stuckInfo = sampleResponse.stuckInfo :=
  generateResponse_stuckInfo (readyEnv (constantProvider "What is 2 + 3?".toList))
    "2 + 3".toList [Turn.user (Content.text "hello".toList), Turn.assistant "Hi!".toList]
    "I think 5".toList (some "data:image/png".toList) sampleResponse (by rfl)

/-! ## The reference image -/

theorem referenceImage_cons (turn : Turn) (later : List Turn) :
    referenceImageFromHistory (turn :: later) =
      if truthy (presentImage turn) then presentImage turn
      else referenceImageFromHistory later := by
  cases turn with
  | user content =>
    cases content with
    | text s => simp [referenceImageFromHistory, presentImage, truthy]
    | mixed text image =>
      by_cases h : truthy image = true
      · simp [referenceImageFromHistory, presentImage, h]
      · have hnone : truthy none = false := rfl
        simp only [referenceImageFromHistory, presentImage]
        rw [if_neg h, if_neg h]
        simp [hnone]
  | assistant s => simp [referenceImageFromHistory, presentImage, truthy]
  | system s => simp [referenceImageFromHistory, presentImage, truthy]

theorem presentImage_none_or_truthy (turn : Turn) :
    presentImage turn = none ∨ truthy (presentImage turn) = true := by
  cases turn with
  | user content =>
    cases content with
    | text s => exact Or.inl rfl
    | mixed text image =>
      by_cases h : truthy image = true
      · exact Or.inr (by simp [presentImage, h])
      · exact Or.inl (by simp [presentImage, h])
  | assistant s => exact Or.inl rfl
  | system s => exact Or.inl rfl

theorem referenceImage_none_iff (history : List Turn) :
    referenceImageFromHistory history = none ↔ ∀ turn ∈ history, presentImage turn = none := by
  induction history with
  | nil => simp [referenceImageFromHistory]
  | cons turn later ih =>
    rw [referenceImage_cons]
    rcases presentImage_none_or_truthy turn with h | h
    · simp [h, truthy, ih]
    · have hne : presentImage turn ≠ none := by
        intro h0
        rw [h0] at h
        simp [truthy] at h
      simp [h, hne]

theorem referenceImage_none_or_truthy (history : List Turn) :
    referenceImageFromHistory history = none ∨
      truthy (referenceImageFromHistory history) = true := by
  induction history with
  | nil => exact Or.inl rfl
  | cons turn later ih =>
    rw [referenceImage_cons]
    rcases presentImage_none_or_truthy turn with h | h
    · simpa [h, truthy] using ih
    · exact Or.inr (by simp [h])

theorem referenceImage_append (before after : List Turn)
    (hbefore : ∀ turn ∈ before, presentImage turn = none) :
    referenceImageFromHistory (before ++ after) = referenceImageFromHistory after := by
  induction before with
  | nil => rfl
  | cons turn before ih =>
    rw [List.cons_append, referenceImage_cons, hbefore turn (List.mem_cons_self _ _)]
    simpa [truthy] using ih (fun t ht => hbefore t (List.mem_cons_of_mem _ ht))

/-- C13: the reference image resolved from a history is the image of the
first user turn, in chronological order, whose content is mixed with an
image that is present (neither null nor the empty string, the test of the
code): when no earlier turn brings an image, that image is returned whatever
the later turns hold, and a history without such a turn resolves to null. -/
theorem referenceImage_first (before after : List Turn) (text : JSString)
    (image : Option JSString)
    (hbefore : ∀ turn ∈ before, presentImage turn = none)
    (himage : truthy image = true) :
    referenceImageFromHistory before = none ∧
    referenceImageFromHistory (before ++ Turn.user (Content.mixed text image) :: after)
      = image := by
  refine ⟨(referenceImage_none_iff before).mpr hbefore, ?_⟩
  rw [referenceImage_append before _ hbefore]
  simp [referenceImageFromHistory, himage]

theorem referenceImage_first_witness :
    referenceImageFromHistory
        [Turn.user (Content.text "hello".toList), Turn.assistant "Hi!".toList] = none ∧
    referenceImageFromHistory
        ([Turn.user (Content.text "hello".toList), Turn.assistant "Hi!".toList] ++
          Turn.user (Content.mixed "see this".toList (some "data:image/png;A".toList)) ::
          [Turn.assistant "What do you notice?".toList,
           Turn.user (Content.mixed "and this".toList (some "data:image/png;B".toList))])
      = some "data:image/png;A".toList :=
  referenceImage_first
    [Turn.user (Content.text "hello".toList), Turn.assistant "Hi!".toList]
    [Turn.assistant "What do you notice?".toList,
     Turn.user (Content.mixed "and this".toList (some "data:image/png;B".toList))]
    "see this".toList (some "data:image/png;A".toList) (by decide) (by decide)

/-! ## The assembled prompt -/

theorem synthetic_branch_off (conversationHistory : List Turn) (image : Option JSString) :
    (truthy (referenceImageFromHistory conversationHistory) &&
      (!truthy image || image != referenceImageFromHistory conversationHistory) &&
      conversationHistory.length == 0) = false := by
  cases conversationHistory with
  | nil => simp [referenceImageFromHistory, truthy]
  | cons turn later => simp

theorem buildMessages_eq (problem : JSString) (conversationHistory : List Turn)
    (userMessage : JSString) (image : Option JSString) :
    buildMessages problem conversationHistory userMessage image =
      { role := Role.system
        content := .stored (.text (enhancedSystemPrompt conversationHistory)) } ::
      problemMessage problem ::
      (conversationHistory.map historyMessage ++
        [currentMessage (referenceImageFromHistory conversationHistory) userMessage image]) := by
  have hoff := synthetic_branch_off conversationHistory image
  unfold buildMessages
  simp only [hoff, Bool.false_eq_true, if_false]
  unfold currentMessage enhancedSystemPrompt problemMessage
  split <;> split <;> simp

theorem generateResponse_eq (env : Env) (problem : JSString) (conversationHistory : List Turn)
    (userMessage : JSString) (image : Option JSString) (openai : Provider)
    (hc : getOpenAIClient env = .ok openai) :
    generateResponse env problem conversationHistory userMessage image =
      match openai (completionRequest problem conversationHistory userMessage image) with
      | .error error => .error ⟨"Failed to generate response: ".toList ++ error.message⟩
      | .ok raw =>
        .ok { reply := filterDirectAnswers raw problem
              updatedHistory := conversationHistory ++
                [Turn.user (if truthy image then Content.mixed userMessage image
                            else Content.text userMessage),
                 Turn.assistant (filterDirectAnswers raw problem)]
              stuckInfo := detectStuck conversationHistory } := by
  unfold generateResponse completionRequest
  simp only [hc, jsOr_nil]

theorem truthy_true_iff_ne_none_presentImage (turn : Turn) :
    truthy (presentImage turn) = true ↔ presentImage turn ≠ none := by
  rcases presentImage_none_or_truthy turn with h | h
  · simp [h, truthy]
  · constructor
    · intro _ h0
      rw [h0] at h
      simp [truthy] at h
    · intro _
      exact h

theorem truthy_referenceImage_iff (history : List Turn) :
    truthy (referenceImageFromHistory history) = true ↔
      ∃ turn ∈ history, truthy (presentImage turn) = true := by
  constructor
  · intro h
    have hne : referenceImageFromHistory history ≠ none := by
      intro h0
      rw [h0] at h
      simp [truthy] at h
    rw [Ne, referenceImage_none_iff] at hne
    push_neg at hne
    obtain ⟨turn, hmem, hp⟩ := hne
    exact ⟨turn, hmem, (truthy_true_iff_ne_none_presentImage turn).mpr hp⟩
  · rintro ⟨turn, hmem, hp⟩
    rcases referenceImage_none_or_truthy history with h | h
    · have := (referenceImage_none_iff history).mp h turn hmem
      rw [this] at hp
      simp [truthy] at hp
    · exact h

theorem hasImagePart_historyMessage (turn : Turn) :
    hasImagePart (historyMessage turn) = truthy (presentImage turn) := by
  cases turn with
  | user content =>
    cases content with
    | text s => rfl
    | mixed text image =>
      by_cases h : truthy image = true
      · simp [historyMessage, presentImage, h, hasImagePart]
      · have hnone : truthy none = false := rfl
        simp [historyMessage, presentImage, h, hasImagePart, hnone]
  | assistant s => rfl
  | system s => rfl

theorem hasImagePart_currentMessage (referenceImage : Option JSString) (userMessage : JSString)
    (image : Option JSString) :
    hasImagePart (currentMessage referenceImage userMessage image) =
      (truthy image && image != referenceImage) := by
  unfold currentMessage
  split <;> rename_i h
  · simp [hasImagePart, h]
  · simp only [Bool.not_eq_true] at h
    simp [hasImagePart, h]

/-- C14: the model chosen by `generateResponse` is `gpt-4o` if and only if
some message of the assembled prompt carries an image part, and it is `gpt-4`
otherwise; that model is the one the provider receives. -/
theorem chooseModel_iff_image (problem : JSString) (conversationHistory : List Turn)
    (userMessage : JSString) (image : Option JSString) :
    (chooseModel conversationHistory image = "gpt-4o".toList ↔
      ∃ message ∈ buildMessages problem conversationHistory userMessage image,
        hasImagePart message = true) ∧
    (chooseModel conversationHistory image = "gpt-4".toList ↔
      ¬ ∃ message ∈ buildMessages problem conversationHistory userMessage image,
        hasImagePart message = true) ∧
    generateResponse (readyEnv (fun request => .error ⟨request.model⟩)) problem
        conversationHistory userMessage image
      = .error ⟨"Failed to generate response: ".toList ++
          chooseModel conversationHistory image⟩ := by
  have hne : "gpt-4".toList ≠ "gpt-4o".toList := by decide
  have hmodel : chooseModel conversationHistory image = "gpt-4o".toList ↔
      (truthy image || truthy (referenceImageFromHistory conversationHistory)) = true := by
    unfold chooseModel
    by_cases h : (truthy image || truthy (referenceImageFromHistory conversationHistory)) = true
    · simp only [h, if_true]
    · simp only [h, Bool.false_eq_true, if_false, iff_false]
      exact hne
  have himg : (∃ message ∈ buildMessages problem conversationHistory userMessage image,
        hasImagePart message = true) ↔
      (truthy image || truthy (referenceImageFromHistory conversationHistory)) = true := by
    rw [buildMessages_eq]
    simp only [List.mem_cons, List.mem_append, List.mem_map, List.not_mem_nil, or_false,
      Bool.or_eq_true]
    constructor
    · rintro ⟨message, hmem, hpart⟩
      rcases hmem with rfl | rfl | ⟨turn, hturn, rfl⟩ | rfl
      · simp [hasImagePart] at hpart
      · simp [hasImagePart, problemMessage] at hpart
      · rw [hasImagePart_historyMessage] at hpart
        exact Or.inr ((truthy_referenceImage_iff _).mpr ⟨turn, hturn, hpart⟩)
      · rw [hasImagePart_currentMessage, Bool.and_eq_true] at hpart
        exact Or.inl hpart.1
    · intro h
      by_cases href : truthy (referenceImageFromHistory conversationHistory) = true
      · obtain ⟨turn, hturn, hp⟩ := (truthy_referenceImage_iff _).mp href
        exact ⟨historyMessage turn, Or.inr (Or.inr (Or.inl ⟨turn, hturn, rfl⟩)),
          by rw [hasImagePart_historyMessage]; exact hp⟩
      · have himage : truthy image = true := by
          rcases h with h | h
          · exact h
          · exact absurd h href
        have hnone : referenceImageFromHistory conversationHistory = none := by
          rcases referenceImage_none_or_truthy conversationHistory with h0 | h0
          · exact h0
          · exact absurd h0 href
        refine ⟨_, Or.inr (Or.inr (Or.inr rfl)), ?_⟩
        rw [hasImagePart_currentMessage, hnone, himage]
        cases image with
        | none => simp [truthy] at himage
        | some s => simp
  refine ⟨hmodel.trans himg.symm, ?_, ?_⟩
  · constructor
    · intro h4 hex
      rw [(hmodel.trans himg.symm).mpr hex] at h4
      exact hne h4.symm
    · intro hno
      rw [himg] at hno
      unfold chooseModel
      simp only [hno, Bool.false_eq_true, if_false]
  · rw [generateResponse_eq (readyEnv (fun request => .error ⟨request.model⟩)) problem
      conversationHistory userMessage image (fun request => .error ⟨request.model⟩) rfl]
    rfl

/-- C15: the assembled message list is, in this order, the system message
whose text starts with the policy text `SYSTEM_PROMPT`, the system message
"The math problem we're working on is: " followed by the problem, one
message for each turn of the history in chronological order, and the message
of the current turn, which is the last one. -/
theorem buildMessages_order (problem : JSString) (conversationHistory : List Turn)
    (userMessage : JSString) (image : Option JSString) :
    buildMessages problem conversationHistory userMessage image =
      { role := Role.system
        content := .stored (.text (enhancedSystemPrompt conversationHistory)) } ::
      { role := Role.system
        content := .stored
          (.text ("The math problem we're working on is: ".toList ++ problem)) } ::
      (conversationHistory.map historyMessage ++
        [currentMessage (referenceImageFromHistory conversationHistory) userMessage image]) ∧
    SYSTEM_PROMPT <+: enhancedSystemPrompt conversationHistory ∧
    (currentMessage (referenceImageFromHistory conversationHistory) userMessage image).role
      = Role.user ∧
    (buildMessages problem conversationHistory userMessage image).getLast? =
      some (currentMessage (referenceImageFromHistory conversationHistory) userMessage image) ∧
    (buildMessages problem conversationHistory userMessage image).length =
      conversationHistory.length + 3 := by
  have heq := buildMessages_eq problem conversationHistory userMessage image
  refine ⟨heq, ?_, ?_, ?_, ?_⟩
  · unfold enhancedSystemPrompt
    split
    · exact ⟨_, rfl⟩
    · exact ⟨[], List.append_nil _⟩
  · unfold currentMessage
    split <;> rfl
  · rw [heq]
    exact List.getLast?_concat
      ({ role := Role.system
         content := .stored (.text (enhancedSystemPrompt conversationHistory)) } ::
       problemMessage problem :: conversationHistory.map historyMessage)
  · rw [heq]
    simp

/-! ## The escalation note -/

theorem detectStuck_exampleHistory :
    (detectStuck exampleHistory).isStuck = true ∧
    (detectStuck exampleHistory).stuckCount = 2 :=
  ⟨by decide, by decide⟩

theorem systemMessages_buildMessages (problem : JSString) (conversationHistory : List Turn)
    (userMessage : JSString) (image : Option JSString) :
    systemMessages (buildMessages problem conversationHistory userMessage image) =
      { role := Role.system
        content := .stored (.text (enhancedSystemPrompt conversationHistory)) } ::
      problemMessage problem ::
      systemMessages (conversationHistory.map historyMessage) := by
  have hcur : (currentMessage (referenceImageFromHistory conversationHistory) userMessage
      image).role = Role.user := by
    unfold currentMessage
    split <;> rfl
  rw [buildMessages_eq]
  simp [systemMessages, List.filter_cons, problemMessage, hcur]

theorem role_historyMessage (turn : Turn) : (historyMessage turn).role = turn.role := by
  cases turn with
  | user content =>
    cases content with
    | text s => rfl
    | mixed text image =>
      simp only [historyMessage]
      split <;> rfl
  | assistant s => rfl
  | system s => rfl

/-- C16, as stated, fails: for the history of the example, which is stuck
with 2 signals, the assembled list has two system messages, not three: the
escalation note is part of the text of the first one. -/
theorem escalation_message_counterexample :
    (detectStuck exampleHistory).isStuck = true ∧
    systemMessages (buildMessages "x + 2 = 7".toList exampleHistory "help".toList none) =
      [ { role := Role.system, content := .stored (.text (SYSTEM_PROMPT ++ stuckNote 2)) },
        { role := Role.system
          content := .stored
            (.text ("The math problem we're working on is: ".toList ++ "x + 2 = 7".toList)) } ] ∧
    (systemMessages (buildMessages "x + 2 = 7".toList exampleHistory "help".toList none)).length
      ≠ 3 := by
  have hsys : systemMessages
      (buildMessages "x + 2 = 7".toList exampleHistory "help".toList none) =
      [ { role := Role.system, content := .stored (.text (SYSTEM_PROMPT ++ stuckNote 2)) },
        { role := Role.system
          content := .stored
            (.text ("The math problem we're working on is: ".toList ++ "x + 2 = 7".toList)) } ] := by
    rw [systemMessages_buildMessages]
    simp only [enhancedSystemPrompt, detectStuck_exampleHistory.1, detectStuck_exampleHistory.2,
      if_true]
    rfl
  refine ⟨detectStuck_exampleHistory.1, hsys, ?_⟩
  rw [hsys]
  decide

/-- C16, amended: the assembled list always starts with the same two system
messages, policy and problem; when `isStuck` is true the escalation note is
appended to the text of the policy message, and when it is false that text
is the policy text alone. No system message is added: the system messages
are these two and those of the system turns of the history. -/
theorem escalation_in_policy_message (problem : JSString) (conversationHistory : List Turn)
    (userMessage : JSString) (image : Option JSString) :
    buildMessages problem conversationHistory userMessage image =
      { role := Role.system
        content := .stored (.text
          (if (detectStuck conversationHistory).isStuck then
             SYSTEM_PROMPT ++ stuckNote (detectStuck conversationHistory).stuckCount
           else SYSTEM_PROMPT)) } ::
      problemMessage problem ::
      (conversationHistory.map historyMessage ++
        [currentMessage (referenceImageFromHistory conversationHistory) userMessage image]) ∧
    (systemMessages (buildMessages problem conversationHistory userMessage image)).length =
      2 + (systemTurns conversationHistory).length := by
  refine ⟨buildMessages_eq problem conversationHistory userMessage image, ?_⟩
  rw [systemMessages_buildMessages]
  have hlen : (systemMessages (conversationHistory.map historyMessage)).length =
      (systemTurns conversationHistory).length := by
    unfold systemMessages systemTurns
    rw [List.filter_map, List.length_map]
    congr 1
    apply List.filter_congr
    intro turn _
    simp [Function.comp, role_historyMessage]
  simp only [List.length_cons, hlen]
  omega

/-- C17, as stated, fails: the notes for 2 and for 3 stuck signals are the
same wording around the printed count, also inside the prompts built for a
history with 2 signals and for one with 3. -/
theorem stuckNote_counterexample :
    stuckNote 2 = stuckNoteBefore ++ "2".toList ++ stuckNoteAfter ∧
    stuckNote 3 = stuckNoteBefore ++ "3".toList ++ stuckNoteAfter ∧
    (detectStuck exampleHistory).stuckCount = 2 ∧
    (detectStuck threeSignalsHistory).stuckCount = 3 ∧
    enhancedSystemPrompt exampleHistory =
      SYSTEM_PROMPT ++ (stuckNoteBefore ++ "2".toList ++ stuckNoteAfter) ∧
    enhancedSystemPrompt threeSignalsHistory =
      SYSTEM_PROMPT ++ (stuckNoteBefore ++ "3".toList ++ stuckNoteAfter) := by
  have h3 : (detectStuck threeSignalsHistory).isStuck = true ∧
      (detectStuck threeSignalsHistory).stuckCount = 3 := ⟨by decide, by decide⟩
  refine ⟨rfl, rfl, detectStuck_exampleHistory.2, h3.2, ?_, ?_⟩
  · simp only [enhancedSystemPrompt, detectStuck_exampleHistory.1,
      detectStuck_exampleHistory.2, if_true]
    rfl
  · simp only [enhancedSystemPrompt, h3.1, h3.2, if_true]
    rfl

/-- C17, amended: the escalation note has one wording for every count: it is
the same text before and after the printed count, so the notes for 2 and for
3 or more signals differ in the printed count only; when the learner is
stuck, the first assembled message is the policy text followed by that
note. -/
theorem stuckNote_wording (problem : JSString) (conversationHistory : List Turn)
    (userMessage : JSString) (image : Option JSString)
    (hstuck : (detectStuck conversationHistory).isStuck = true) :
    (∀ stuckCount : Nat,
      stuckNote stuckCount =
        stuckNoteBefore ++ (Nat.repr stuckCount).toList ++ stuckNoteAfter) ∧
    (buildMessages problem conversationHistory userMessage image).head? =
      some { role := Role.system
             content := .stored (.text (SYSTEM_PROMPT ++
               (stuckNoteBefore ++
                 (Nat.repr (detectStuck conversationHistory).stuckCount).toList ++
                 stuckNoteAfter))) } := by
  refine ⟨fun _ => rfl, ?_⟩
  rw [buildMessages_eq]
  simp only [List.head?_cons, enhancedSystemPrompt, hstuck, if_true]
  rfl

theorem stuckNote_wording_witness :
    (∀ stuckCount : Nat,
      stuckNote stuckCount =
        stuckNoteBefore ++ (Nat.repr stuckCount).toList ++ stuckNoteAfter) ∧
    (buildMessages "x + 2 = 7".toList threeSignalsHistory "help".toList none).head? =
      some { role := Role.system
             content := .stored (.text (SYSTEM_PROMPT ++
               (stuckNoteBefore ++
                 (Nat.repr (detectStuck threeSignalsHistory).stuckCount).toList ++
                 stuckNoteAfter))) } :=
  stuckNote_wording "x + 2 = 7".toList threeSignalsHistory "help".toList none (by decide)

/-! ## The messages of the history -/

/-- C18, as stated, fails: a user turn with an image and an empty text, as
stored for an image sent without a message, becomes a message whose text
part is a fixed sentence, not the text of the turn. -/
theorem historyMessage_counterexample :
    historyMessage (Turn.user (Content.mixed [] (some "data:image/png;A".toList))) =
      { role := Role.user
        content := .parts [.text "I shared an image with this message.".toList,
                           .image_url "data:image/png;A".toList] } ∧
    historyMessage (Turn.user (Content.mixed [] (some "data:image/png;A".toList))) ≠
      { role := Role.user
        content := .parts [.text [], .image_url "data:image/png;A".toList] } :=
  ⟨by decide, by decide⟩

theorem historyMessage_eq (turn : Turn) :
    historyMessage turn =
      if truthy (presentImage turn) then
        { role := Role.user
          content := .parts
            [.text (if turnText turn = [] then "I shared an image with this message.".toList
                    else turnText turn),
             .image_url ((presentImage turn).getD [])] }
      else { role := turn.role, content := .stored turn.content } := by
  have hnone : truthy none = false := rfl
  cases turn with
  | user content =>
    cases content with
    | text s => simp [historyMessage, presentImage, hnone, Turn.role, Turn.content]
    | mixed text image =>
      by_cases h : truthy image = true
      · cases text with
        | nil => simp [historyMessage, presentImage, h, turnText, userTurnText, jsOr]
        | cons c text => simp [historyMessage, presentImage, h, turnText, userTurnText, jsOr]
      · simp [historyMessage, presentImage, h, hnone, Turn.role, Turn.content]
  | assistant s => simp [historyMessage, presentImage, hnone]
  | system s => simp [historyMessage, presentImage, hnone]

/-- C18, amended: prompt assembly emits exactly one message for every turn
of the history, in order, after the two system messages. A user turn with
mixed content and an image becomes a user message with two parts: a text
part, holding the text of the turn or "I shared an image with this message."
when that text is empty, and then an image part holding the image of the
turn; any other turn becomes a message with the same role and the same
content. The reference image plays no part in this, so an image equal to it
is included wherever it occurs. -/
theorem historyMessages_assembled (problem : JSString) (conversationHistory : List Turn)
    (userMessage : JSString) (image : Option JSString) :
    ((buildMessages problem conversationHistory userMessage image).drop 2).take
        conversationHistory.length = conversationHistory.map historyMessage ∧
    (buildMessages problem conversationHistory userMessage image).length =
      conversationHistory.length + 3 ∧
    ∀ turn : Turn,
      historyMessage turn =
        if truthy (presentImage turn) then
          { role := Role.user
            content := .parts
              [.text (if turnText turn = [] then "I shared an image with this message.".toList
                      else turnText turn),
               .image_url ((presentImage turn).getD [])] }
        else { role := turn.role, content := .stored turn.content } := by
  refine ⟨?_, ?_, historyMessage_eq⟩
  · rw [buildMessages_eq]
    simp only [List.drop_succ_cons, List.drop_zero]
    rw [← List.length_map conversationHistory historyMessage, List.take_left]
  · rw [buildMessages_eq]
    simp

/-! ## The message of the current turn -/

/-- C19: the last assembled message is the message of the current turn. It is
a user message with the two parts text and image if and only if an image was
supplied (a non-empty string) and differs from the reference image resolved
from the history; its text part is then `userMessage`, or "I need help with
this image." when `userMessage` is empty. In every other case it is the user
message with the plain content `userMessage`. -/
theorem currentMessage_last (problem : JSString) (conversationHistory : List Turn)
    (userMessage : JSString) (image : Option JSString) :
    (buildMessages problem conversationHistory userMessage image).getLast? =
      some (if truthy image = true ∧ image ≠ referenceImageFromHistory conversationHistory then
              { role := Role.user
                content := .parts
                  [.text (if userMessage = [] then "I need help with this image.".toList
                          else userMessage),
                   .image_url (image.getD [])] }
            else { role := Role.user, content := .stored (.text userMessage) }) ∧
    ((∃ text url,
        (buildMessages problem conversationHistory userMessage image).getLast? =
          some { role := Role.user, content := .parts [.text text, .image_url url] }) ↔
      (truthy image = true ∧ image ≠ referenceImageFromHistory conversationHistory)) := by
  have hlast : (buildMessages problem conversationHistory userMessage image).getLast? =
      some (currentMessage (referenceImageFromHistory conversationHistory) userMessage image) := by
    rw [buildMessages_eq]
    exact List.getLast?_concat
      ({ role := Role.system
         content := .stored (.text (enhancedSystemPrompt conversationHistory)) } ::
       problemMessage problem :: conversationHistory.map historyMessage)
  have hcur : currentMessage (referenceImageFromHistory conversationHistory) userMessage image =
      (if truthy image = true ∧ image ≠ referenceImageFromHistory conversationHistory then
              { role := Role.user
                content := .parts
                  [.text (if userMessage = [] then "I need help with this image.".toList
                          else userMessage),
                   .image_url (image.getD [])] }
            else { role := Role.user, content := .stored (.text userMessage) }) := by
    unfold currentMessage
    by_cases h : truthy image = true ∧ image ≠ referenceImageFromHistory conversationHistory
    · cases userMessage with
      | nil => simp [h, jsOr]
      | cons c rest => simp [h, jsOr]
    · have h2 : (truthy image && image != referenceImageFromHistory conversationHistory)
          = false := by
        rw [Bool.eq_false_iff]
        intro hb
        simp only [Bool.and_eq_true, bne_iff_ne, ne_eq] at hb
        exact h hb
      simp only [h2, Bool.false_eq_true, if_false, h, jsOr_nil]
  rw [hlast, hcur]
  refine ⟨rfl, ?_⟩
  by_cases h : truthy image = true ∧ image ≠ referenceImageFromHistory conversationHistory
  · rw [if_pos h]
    exact ⟨fun _ => h, fun _ => ⟨_, _, rfl⟩⟩
  · rw [if_neg h]
    refine ⟨?_, fun h2 => absurd h2 h⟩
    rintro ⟨text, url, hex⟩
    simp at hex

/-! ## Failure of the completion call -/

theorem generateResponseS_stateless {σ : Type} (env : Env) (problem : JSString)
    (conversationHistory : List Turn) (userMessage : JSString) (image : Option JSString)
    (s : σ) :
    generateResponseS ((getOpenAIClient env).map statelessProvider) problem conversationHistory
        userMessage image s
      = (generateResponse env problem conversationHistory userMessage image, s) := by
  unfold generateResponseS generateResponse
  cases getOpenAIClient env with
  | error e => rfl
  | ok openai =>
    simp only [Except.map, statelessProvider]
    cases openai { model := chooseModel conversationHistory image
                   messages := buildMessages problem conversationHistory userMessage image
                   temperatureTenths := 7
                   max_tokens := 500 } with
    | error e => rfl
    | ok raw => rfl

/-- C20: when the completion call fails with an error of message `m`,
`generateResponse` fails with the one error of message "Failed to generate
response: " followed by `m`, and so returns no reply, history or diagnostic.
The provider is called once: with a provider that has a state, the state
after `generateResponse` is the state after that one failed call. -/
theorem generateResponse_provider_failure (env : Env) (problem : JSString)
    (conversationHistory : List Turn) (userMessage : JSString) (image : Option JSString)
    (openai : Provider) (m : JSString) (σ : Type) (stateful : StatefulProvider σ) (s s1 : σ)
    (hc : getOpenAIClient env = .ok openai)
    (hr : openai (completionRequest problem conversationHistory userMessage image)
      = .error ⟨m⟩)
    (hs : stateful s (completionRequest problem conversationHistory userMessage image)
      = (.error ⟨m⟩, s1)) :
    generateResponse env problem conversationHistory userMessage image
      = .error ⟨"Failed to generate response: ".toList ++ m⟩ ∧
    (∀ r : Response,
      generateResponse env problem conversationHistory userMessage image ≠ .ok r) ∧
    generateResponseS (.ok stateful) problem conversationHistory userMessage image s
      = (.error ⟨"Failed to generate response: ".toList ++ m⟩, s1) := by
  have h1 : generateResponse env problem conversationHistory userMessage image
      = .error ⟨"Failed to generate response: ".toList ++ m⟩ := by
    rw [generateResponse_eq env problem conversationHistory userMessage image openai hc, hr]
  refine ⟨h1, ?_, ?_⟩
  · intro r hok
    rw [h1] at hok
    cases hok
  · unfold completionRequest at hs
    simp only [generateResponseS, hs]

theorem generateResponse_provider_failure_witness :
    generateResponse (readyEnv (fun _ => .error ⟨"rate limit".toList⟩)) "x + 2 = 7".toList
        exampleHistory "help".toList none
      = .error ⟨"Failed to generate response: rate limit".toList⟩ ∧
    (∀ r : Response,
      generateResponse (readyEnv (fun _ => .error ⟨"rate limit".toList⟩)) "x + 2 = 7".toList
        exampleHistory "help".toList none ≠ .ok r) ∧
    generateResponseS (.ok flakyProvider) "x + 2 = 7".toList exampleHistory "help".toList none 0
      = (.error ⟨"Failed to generate response: rate limit".toList⟩, 1) :=
  generateResponse_provider_failure (readyEnv (fun _ => .error ⟨"rate limit".toList⟩))
    "x + 2 = 7".toList exampleHistory "help".toList none
    (fun _ => .error ⟨"rate limit".toList⟩) "rate limit".toList Nat flakyProvider 0 1
    rfl rfl rfl

/-! ## The third explicit pattern and its comment -/

/-- C25: the comment of the third explicit pattern names "It's 5" and
"It is x=3"; the code replaces the first by the redirect message and returns
the second as it is. -/
theorem filterDirectAnswers_it_is :
    filterDirectAnswers "It's 5".toList "x + 2 = 7".toList = redirectMessage ∧
    filterDirectAnswers "It is x=3".toList "x + 2 = 5".toList = "It is x=3".toList ∧
    filterDirectAnswers "It is x=3".toList "x + 2 = 5".toList ≠ redirectMessage ∧
    filterDirectAnswers "It is 5".toList "x + 2 = 7".toList = "It is 5".toList :=
  ⟨by decide, by decide, by decide, by decide⟩

/-! ## The size of the assembled prompt -/

/-- C26: the assembled message list has exactly `|history| + 3` messages: the
condition of the branch that would add the reference-image message is never
true, because the reference image resolved from an empty history is null. -/
theorem buildMessages_length (problem : JSString) (conversationHistory : List Turn)
    (userMessage : JSString) (image : Option JSString) :
    (buildMessages problem conversationHistory userMessage image).length =
      conversationHistory.length + 3 ∧
    (truthy (referenceImageFromHistory conversationHistory) &&
      (!truthy image || image != referenceImageFromHistory conversationHistory) &&
      conversationHistory.length == 0) = false ∧
    referenceImageFromHistory [] = none := by
  refine ⟨?_, synthetic_branch_off conversationHistory image, rfl⟩
  rw [buildMessages_eq]
  simp

/-! ## The serverless orchestrator -/

/-- C27: the `generateResponse` of `src/lib/orchestrator.js` applies no
filter: when the provider returns the text `raw`, the reply is `raw` itself
and `updatedHistory` is the history followed by the user turn with
`userMessage` and the assistant turn with `raw`. -/
theorem lib_generateResponse_unfiltered (client : Except JSError Provider)
    (openai : Provider) (problem : JSString) (conversationHistory : List Turn)
    (userMessage raw : JSString)
    (hc : client = .ok openai)
    (hr : openai { model := "gpt-4".toList
                   messages := Lib.buildMessages problem conversationHistory userMessage
                   temperatureTenths := 7
                   max_tokens := 500 } = .ok raw) :
    Lib.generateResponse client problem conversationHistory userMessage =
      .ok { reply := raw
            updatedHistory := conversationHistory ++
              [Turn.user (Content.text userMessage), Turn.assistant raw] } := by
  subst hc
  simp only [Lib.generateResponse, hr]

theorem lib_generateResponse_unfiltered_witness :
    Lib.generateResponse (.ok (constantProvider "42".toList)) "6 * 7".toList
        [Turn.user (Content.text "hello".toList), Turn.assistant "Hi!".toList]
        "what is it".toList =
      .ok { reply := "42".toList
            updatedHistory :=
              [Turn.user (Content.text "hello".toList), Turn.assistant "Hi!".toList] ++
              [Turn.user (Content.text "what is it".toList), Turn.assistant "42".toList] } :=
  lib_generateResponse_unfiltered (.ok (constantProvider "42".toList))
    (constantProvider "42".toList) "6 * 7".toList
    [Turn.user (Content.text "hello".toList), Turn.assistant "Hi!".toList]
    "what is it".toList "42".toList rfl rfl

/-! ## Idempotence of the filter -/

theorem filterDirectAnswers_cases (reply problem : JSString) :
    filterDirectAnswers reply problem = reply ∨
      filterDirectAnswers reply problem = redirectMessage := by
  unfold filterDirectAnswers
  simp only
  split
  · exact Or.inr rfl
  · split
    · exact Or.inr rfl
    · split
      · exact Or.inr rfl
      · exact Or.inl rfl

set_option maxRecDepth 20000 in
theorem redirect_matches_none :
    explicitFinalAnswerPatterns.any (fun pattern => pattern.test (jsTrim redirectMessage))
      = false ∧
    justNumberPattern.test (jsTrim redirectMessage) = false ∧
    directAnswerPattern.test (jsTrim redirectMessage) = false :=
  ⟨by decide, by decide, by decide⟩

/-- C29: `filterDirectAnswers` is idempotent: its result is the reply itself
or the redirect message, and the redirect message, which matches none of the
patterns of the three heuristics, is returned as it is. -/
theorem filterDirectAnswers_idempotent (reply problem : JSString) :
    filterDirectAnswers (filterDirectAnswers reply problem) problem =
      filterDirectAnswers reply problem ∧
    (filterDirectAnswers reply problem = reply ∨
      filterDirectAnswers reply problem = redirectMessage) ∧
    filterDirectAnswers redirectMessage problem = redirectMessage ∧
    explicitFinalAnswerPatterns.any (fun pattern => pattern.test (jsTrim redirectMessage))
      = false ∧
    justNumberPattern.test (jsTrim redirectMessage) = false ∧
    directAnswerPattern.test (jsTrim redirectMessage) = false := by
  have hfix : filterDirectAnswers redirectMessage problem = redirectMessage := by
    rcases filterDirectAnswers_cases redirectMessage problem with h | h <;> exact h
  refine ⟨?_, filterDirectAnswers_cases reply problem, hfix, redirect_matches_none.1,
    redirect_matches_none.2.1, redirect_matches_none.2.2⟩
  rcases filterDirectAnswers_cases reply problem with h | h
  · rw [h, h]
  · rw [h, hfix]

/-! ## Bare tokens without a digit -/

/-- C30: the bare-number heuristic asks for no digit: a reply whose trimmed
form is non-empty, shorter than 20, and made of the characters `.`, `-`, `+`
and `/` only is replaced by the redirect message. -/
theorem filterDirectAnswers_no_digit (reply problem : JSString)
    (hne : jsTrim reply ≠ [])
    (hlen : jsLength (jsTrim reply) < 20)
    (hc : ∀ c ∈ jsTrim reply, c ∈ ".-+/".toList) :
    filterDirectAnswers reply problem = redirectMessage := by
  have hsub : ∀ c ∈ ".-+/".toList, c ∈ "0123456789.-+/".toList := by decide
  have hjust := justNumber_matches (jsTrim reply) [] hne (fun c h => hsub c (hc c h))
    (Or.inl rfl)
  rw [List.append_nil] at hjust
  simp only [filterDirectAnswers, hjust, hlen, Bool.true_and, decide_True, if_true]
  split <;> rfl

theorem filterDirectAnswers_no_digit_witness :
    filterDirectAnswers "...".toList "6 * 7".toList = redirectMessage ∧
    filterDirectAnswers " - ".toList "6 * 7".toList = redirectMessage :=
  ⟨filterDirectAnswers_no_digit "...".toList "6 * 7".toList (by decide) (by decide) (by decide),
   filterDirectAnswers_no_digit " - ".toList "6 * 7".toList (by decide) (by decide) (by decide)⟩

/-! ## Matches with their text -/

namespace RE

theorem iterOrdered_sound {n : Nat} {a : RE}
    (ih : ∀ t u, u ∈ runOrdered n a t → Matches n a t u) :
    ∀ (fuel : Nat) (t v : List Char), v ∈ iterOrdered (fun u => runOrdered n a u) fuel t →
      Matches n (star a) t v := by
  intro fuel
  induction fuel with
  | zero =>
    intro t v hv
    simp only [iterOrdered, List.mem_singleton] at hv
    subst hv
    exact Matches.starNil v
  | succ k ihk =>
    intro t v hv
    simp only [iterOrdered, List.mem_append, List.mem_flatMap, List.mem_filter,
      List.mem_singleton] at hv
    rcases hv with ⟨u, ⟨hu, _⟩, hv⟩ | hv
    · exact Matches.starCons (ih t u hu) (ihk u v hv)
    · subst hv
      exact Matches.starNil v

theorem runOrdered_sound (n : Nat) :
    ∀ (r : RE) (t u : List Char), u ∈ runOrdered n r t → Matches n r t u := by
  intro r
  induction r with
  | eps =>
    intro t u h
    simp only [runOrdered, List.mem_singleton] at h
    subst h
    exact Matches.eps u
  | bol =>
    intro t u h
    simp only [runOrdered] at h
    split at h
    · rename_i hn
      simp only [List.mem_singleton] at h
      subst h
      exact Matches.bol u hn
    · simp at h
  | eol =>
    intro t u h
    simp only [runOrdered] at h
    split at h
    · rename_i hn
      simp only [List.mem_singleton] at h
      subst h
      have : u = [] := by simpa using hn
      subst this
      exact Matches.eol
    · simp at h
  | cls p =>
    intro t u h
    cases t with
    | nil => simp [runOrdered] at h
    | cons c t =>
      simp only [runOrdered] at h
      split at h
      · rename_i hp
        simp only [List.mem_singleton] at h
        subst h
        exact Matches.cls p c u hp
      · simp at h
  | seq a b iha ihb =>
    intro t u h
    simp only [runOrdered, List.mem_flatMap] at h
    obtain ⟨w, hw, hu⟩ := h
    exact Matches.seq (iha t w hw) (ihb w u hu)
  | alt a b iha ihb =>
    intro t u h
    simp only [runOrdered, List.mem_append] at h
    rcases h with h | h
    · exact Matches.altL (iha t u h)
    · exact Matches.altR (ihb t u h)
  | star a iha =>
    intro t u h
    simp only [runOrdered] at h
    exact iterOrdered_sound iha t.length t u h

theorem execFrom_sound (n : Nat) (r : RE) :
    ∀ (starts : List (List Char)) (m : JSString), execFrom n r starts = some m →
      ∃ t u, t ∈ starts ∧ Matches n r t u ∧ t = m ++ u := by
  intro starts
  induction starts with
  | nil => intro m h; simp [execFrom] at h
  | cons t later ih =>
    intro m h
    simp only [execFrom] at h
    cases hrun : runOrdered n r t with
    | nil =>
      rw [hrun] at h
      obtain ⟨t2, u, hmem, hm, heq⟩ := ih m h
      exact ⟨t2, u, List.mem_cons_of_mem _ hmem, hm, heq⟩
    | cons u rest =>
      rw [hrun] at h
      simp only [Option.some.injEq] at h
      have hm : Matches n r t u := runOrdered_sound n r t u (by rw [hrun]; exact List.mem_cons_self _ _)
      obtain ⟨w, hw⟩ := hm.isSuffix
      refine ⟨t, u, List.mem_cons_self _ _, hm, ?_⟩
      rw [← h, ← hw]
      simp

end RE

theorem bracePattern_inv {n : Nat} {t u : List Char}
    (h : RE.Matches n bracePattern t u) :
    ∃ mid, t = Char.ofNat 123 :: (mid ++ Char.ofNat 125 :: u) := by
  cases h with
  | seq h1 h2 =>
    cases h1 with
    | cls _ _ _ hp1 =>
      cases h2 with
      | seq h3 h4 =>
        cases h4 with
        | seq h5 h6 =>
          cases h6
          cases h5 with
          | cls _ _ _ hp2 =>
            obtain ⟨mid, hmid⟩ := h3.isSuffix
            simp only [beq_iff_eq] at hp1 hp2
            subst hp1 hp2
            exact ⟨mid, by rw [← hmid]⟩

theorem exec_bracePattern_span (content m : JSString)
    (h : RE.exec bracePattern content = some m) : IsBraceSpan content m := by
  obtain ⟨t, u, hmem, hm, heq⟩ := RE.execFrom_sound _ _ _ _ h
  obtain ⟨pre, hpre⟩ := (List.mem_tails _ _).mp hmem
  obtain ⟨mid, hmid⟩ := bracePattern_inv hm
  have hspan : m = Char.ofNat 123 :: (mid ++ [Char.ofNat 125]) := by
    have h2 : m ++ u = (Char.ofNat 123 :: (mid ++ [Char.ofNat 125])) ++ u := by
      rw [← heq, hmid]
      simp
    exact List.append_cancel_right h2
  refine ⟨pre, mid, u, ?_, hspan⟩
  rw [← hpre, heq, List.append_assoc]

theorem runOrdered_anyChar (n : Nat) (c : Char) (t : List Char) :
    RE.runOrdered n RE.anyChar (c :: t) = [t] := by
  have h : (isJsSpace c || !isJsSpace c) = true := by cases isJsSpace c <;> rfl
  simp [RE.runOrdered, RE.anyChar, h]

theorem iterOrdered_anyChar (n : Nat) :
    ∀ (t : List Char) (fuel : Nat), t.length ≤ fuel →
      RE.iterOrdered (fun u => RE.runOrdered n RE.anyChar u) fuel t = shortestFirst t := by
  intro t
  induction t with
  | nil =>
    intro fuel _
    cases fuel with
    | zero => rfl
    | succ k => simp [RE.iterOrdered, RE.runOrdered, RE.anyChar, shortestFirst]
  | cons c t ih =>
    intro fuel hfuel
    obtain ⟨k, rfl⟩ : ∃ k, fuel = k + 1 := ⟨fuel - 1, by simp at hfuel; omega⟩
    have hk : t.length ≤ k := by simp at hfuel; omega
    simp only [RE.iterOrdered, runOrdered_anyChar, shortestFirst]
    simp [ih k hk]

theorem shortestFirst_suffix (t : List Char) : ∀ u ∈ shortestFirst t, u <:+ t := by
  induction t with
  | nil =>
    intro u hu
    simp only [shortestFirst, List.mem_singleton] at hu
    subst hu
    exact List.suffix_refl _
  | cons c t ih =>
    intro u hu
    simp only [shortestFirst, List.mem_append, List.mem_singleton] at hu
    rcases hu with hu | hu
    · exact (ih u hu).trans (List.suffix_cons c t)
    · subst hu
      exact List.suffix_refl _

theorem shortestFirst_append (mid b : List Char) :
    ∃ longer, shortestFirst (mid ++ b) = shortestFirst b ++ longer := by
  induction mid with
  | nil => exact ⟨[], by simp⟩
  | cons c mid ih =>
    obtain ⟨longer, hl⟩ := ih
    exact ⟨longer ++ [c :: (mid ++ b)], by simp [shortestFirst, hl]⟩

theorem runOrdered_brace_open (n : Nat) (rest : List Char) :
    RE.runOrdered n bracePattern (Char.ofNat 123 :: rest) =
      (shortestFirst rest).flatMap
        (fun u => RE.runOrdered n (RE.seq (RE.chr (Char.ofNat 125)) RE.eps) u) := by
  have hopen : RE.runOrdered n (RE.chr (Char.ofNat 123)) (Char.ofNat 123 :: rest) = [rest] := by
    simp [RE.runOrdered, RE.chr]
  show (RE.runOrdered n (RE.chr (Char.ofNat 123)) (Char.ofNat 123 :: rest)).flatMap
      (fun u => (RE.runOrdered n (RE.star RE.anyChar) u).flatMap
        (fun v => RE.runOrdered n (RE.seq (RE.chr (Char.ofNat 125)) RE.eps) v)) = _
  rw [hopen]
  simp only [List.flatMap_cons, List.flatMap_nil, List.append_nil]
  show (RE.iterOrdered (fun u => RE.runOrdered n RE.anyChar u) rest.length rest).flatMap _ = _
  rw [iterOrdered_anyChar n rest rest.length (Nat.le_refl _)]

theorem runOrdered_brace_other (n : Nat) (c : Char) (rest : List Char)
    (hc : c ≠ Char.ofNat 123) : RE.runOrdered n bracePattern (c :: rest) = [] := by
  have hopen : RE.runOrdered n (RE.chr (Char.ofNat 123)) (c :: rest) = [] := by
    simp [RE.runOrdered, RE.chr, hc]
  show (RE.runOrdered n (RE.chr (Char.ofNat 123)) (c :: rest)).flatMap _ = _
  rw [hopen]
  rfl

theorem closer_none (n : Nat) (post : List Char) (hpost : Char.ofNat 125 ∉ post) :
    (shortestFirst post).flatMap
      (fun u => RE.runOrdered n (RE.seq (RE.chr (Char.ofNat 125)) RE.eps) u) = [] := by
  rw [List.flatMap_eq_nil_iff]
  intro u hu
  have hsuf := shortestFirst_suffix post u hu
  cases u with
  | nil => simp [RE.runOrdered, RE.chr]
  | cons c u =>
    have hc : c ≠ Char.ofNat 125 := by
      intro h
      subst h
      exact hpost (hsuf.subset (List.mem_cons_self _ _))
    simp [RE.runOrdered, RE.chr, hc]

theorem exec_bracePattern_greedy (pre mid post : JSString)
    (hpre : Char.ofNat 123 ∉ pre) (hpost : Char.ofNat 125 ∉ post) :
    RE.exec bracePattern (pre ++ Char.ofNat 123 :: (mid ++ Char.ofNat 125 :: post)) =
      some (Char.ofNat 123 :: (mid ++ [Char.ofNat 125])) := by
  unfold RE.exec
  generalize (pre ++ Char.ofNat 123 :: (mid ++ Char.ofNat 125 :: post)).length = n
  induction pre with
  | nil =>
    obtain ⟨longer, hl⟩ := shortestFirst_append mid (Char.ofNat 125 :: post)
    have hrun : ∃ others, RE.runOrdered n bracePattern
        (Char.ofNat 123 :: (mid ++ Char.ofNat 125 :: post)) = post :: others := by
      have hhit : RE.runOrdered n (RE.seq (RE.chr (Char.ofNat 125)) RE.eps)
          (Char.ofNat 125 :: post) = [post] := by
        simp [RE.runOrdered, RE.chr]
      rw [runOrdered_brace_open, hl]
      simp only [shortestFirst, List.flatMap_append, closer_none n post hpost, List.nil_append,
        List.flatMap_cons, List.flatMap_nil, List.append_nil, hhit]
      exact ⟨_, rfl⟩
    obtain ⟨others, ho⟩ := hrun
    simp only [List.nil_append, List.tails, RE.execFrom, ho, Option.some.injEq]
    have hlen : (Char.ofNat 123 :: (mid ++ Char.ofNat 125 :: post)).length - post.length =
        (Char.ofNat 123 :: (mid ++ [Char.ofNat 125])).length := by
      simp
      omega
    rw [hlen]
    have happ : Char.ofNat 123 :: (mid ++ Char.ofNat 125 :: post) =
        (Char.ofNat 123 :: (mid ++ [Char.ofNat 125])) ++ post := by simp
    rw [happ, List.take_left]
  | cons c pre ih =>
    have hc : c ≠ Char.ofNat 123 := by
      intro h
      subst h
      exact hpre (List.mem_cons_self _ _)
    have hpre2 : Char.ofNat 123 ∉ pre := fun h => hpre (List.mem_cons_of_mem _ h)
    simp only [List.cons_append, List.tails, RE.execFrom, runOrdered_brace_other n c _ hc]
    exact ih hpre2

/-! ## The answer validation judge -/

theorem validateAnswer_eq (env : Env) (parse : JSString → Option JSValue)
    (studentAnswer problem : JSString) (expectedAnswer : Option JSString) (openai : Provider)
    (hc : getOpenAIClient env = .ok openai) :
    validateAnswer env parse studentAnswer problem expectedAnswer =
      .ok (match openai (validationRequest studentAnswer problem expectedAnswer) with
           | .error _ => neutralVerdict
           | .ok content =>
             match parseResponse parse content with
             | .error _ => neutralVerdict
             | .ok result => verdictFrom result) := by
  unfold validateAnswer
  simp only [hc]
  cases openai (validationRequest studentAnswer problem expectedAnswer) with
  | error e => rfl
  | ok content =>
    simp only
    cases parseResponse parse content with
    | error e => rfl
    | ok result =>
      simp only [verdictFrom]
      cases buildVerdict result with
      | error e => rfl
      | ok verdict => rfl

/-- C21, as stated, fails: when `OPENAI_API_KEY` is not set and no client is
cached, `validateAnswer` raises the error of `getOpenAIClient`, which it
calls before its `try` block. -/
theorem validateAnswer_counterexample :
    validateAnswer envMissingKey jsonParse "4".toList "2 + 2".toList none =
      .error ⟨"OPENAI_API_KEY is not set in environment variables".toList⟩ :=
  rfl

/-- C21, amended: `validateAnswer` returns a verdict exactly when the
provider client is obtained, and then for every outcome of the provider call
and of parsing: the neutral verdict when the call fails, when no value can be
parsed, or when reading the fields throws, and the verdict built from the
parsed value otherwise. The error of a failed `getOpenAIClient` is raised. -/
theorem validateAnswer_outcome (env : Env) (parse : JSString → Option JSValue)
    (studentAnswer problem : JSString) (expectedAnswer : Option JSString) :
    ((∃ verdict, validateAnswer env parse studentAnswer problem expectedAnswer = .ok verdict) ↔
      ∃ openai, getOpenAIClient env = .ok openai) ∧
    validateAnswer env parse studentAnswer problem expectedAnswer =
      (match getOpenAIClient env with
       | .error e => .error e
       | .ok openai =>
         .ok (match openai (validationRequest studentAnswer problem expectedAnswer) with
              | .error _ => neutralVerdict
              | .ok content =>
                match parseResponse parse content with
                | .error _ => neutralVerdict
                | .ok result => verdictFrom result)) := by
  cases hc : getOpenAIClient env with
  | error e =>
    have hv : validateAnswer env parse studentAnswer problem expectedAnswer = .error e := by
      unfold validateAnswer
      simp only [hc]
    refine ⟨?_, hv⟩
    rw [hv]
    constructor
    · rintro ⟨verdict, h⟩
      cases h
    · rintro ⟨openai, h⟩
      cases h
  | ok openai =>
    have hv := validateAnswer_eq env parse studentAnswer problem expectedAnswer openai hc
    exact ⟨⟨fun _ => ⟨openai, rfl⟩, fun _ => ⟨_, hv⟩⟩, hv⟩

theorem parseResponse_error (parse : JSString → Option JSValue) (content : JSString)
    (hwhole : parse content = none)
    (hspans : ∀ span, IsBraceSpan content span → parse span = none) :
    ∃ e, parseResponse parse content = .error e := by
  unfold parseResponse
  rw [hwhole]
  cases hexec : RE.exec bracePattern content with
  | none => exact ⟨_, rfl⟩
  | some jsonMatch =>
    simp only
    rw [hspans jsonMatch (exec_bracePattern_span content jsonMatch hexec)]
    exact ⟨_, rfl⟩

/-- C22: when the provider call of `validateAnswer` fails, or when its text
is not valid JSON and no part of it from an opening brace to a closing brace
parses as JSON, `validateAnswer` returns exactly the neutral verdict, the same
in both cases: not correct, the feedback "Unable to validate answer. Please
try again.", and the confidence 0. -/
theorem validateAnswer_neutral (env : Env) (parse : JSString → Option JSValue)
    (studentAnswer problem : JSString) (expectedAnswer : Option JSString) (openai : Provider)
    (hc : getOpenAIClient env = .ok openai)
    (hfail :
      (∃ e, openai (validationRequest studentAnswer problem expectedAnswer) = .error e) ∨
      (∃ content, openai (validationRequest studentAnswer problem expectedAnswer) = .ok content ∧
        parse content = none ∧ ∀ span, IsBraceSpan content span → parse span = none)) :
    validateAnswer env parse studentAnswer problem expectedAnswer = .ok neutralVerdict ∧
    neutralVerdict.isCorrect = .bool false ∧
    neutralVerdict.feedback = .str "Unable to validate answer. Please try again.".toList ∧
    neutralVerdict.confidence = .num ⟨0, 0⟩ := by
  refine ⟨?_, rfl, rfl, rfl⟩
  rw [validateAnswer_eq env parse studentAnswer problem expectedAnswer openai hc]
  rcases hfail with ⟨e, he⟩ | ⟨content, hcontent, hwhole, hspans⟩
  · rw [he]
  · rw [hcontent]
    obtain ⟨e, he⟩ := parseResponse_error parse content hwhole hspans
    simp only [he]

theorem no_brace_span (content : JSString) (hno : Char.ofNat 123 ∉ content) :
    ∀ span, IsBraceSpan content span → jsonParse span = none := by
  rintro span ⟨pre, mid, post, hcontent, hspan⟩
  exfalso
  apply hno
  rw [hcontent, hspan]
  simp

theorem validateAnswer_neutral_witness :
    (validateAnswer (readyEnv (fun _ => .error ⟨"rate limit".toList⟩)) jsonParse "4".toList
        "2 + 2".toList none = .ok neutralVerdict ∧
      neutralVerdict.isCorrect = .bool false ∧
      neutralVerdict.feedback = .str "Unable to validate answer. Please try again.".toList ∧
      neutralVerdict.confidence = .num ⟨0, 0⟩) ∧
    (validateAnswer (readyEnv (constantProvider "Yes, that is right.".toList)) jsonParse
        "4".toList "2 + 2".toList none = .ok neutralVerdict ∧
      neutralVerdict.isCorrect = .bool false ∧
      neutralVerdict.feedback = .str "Unable to validate answer. Please try again.".toList ∧
      neutralVerdict.confidence = .num ⟨0, 0⟩) :=
  ⟨validateAnswer_neutral (readyEnv (fun _ => .error ⟨"rate limit".toList⟩)) jsonParse
     "4".toList "2 + 2".toList none (fun _ => .error ⟨"rate limit".toList⟩) rfl
     (Or.inl ⟨_, rfl⟩),
   validateAnswer_neutral (readyEnv (constantProvider "Yes, that is right.".toList)) jsonParse
     "4".toList "2 + 2".toList none (constantProvider "Yes, that is right.".toList) rfl
     (Or.inr ⟨"Yes, that is right.".toList, rfl, by rfl,
       no_brace_span "Yes, that is right.".toList (by decide)⟩)⟩

set_option maxRecDepth 20000 in
theorem objectThenBraces_facts :
    validateAnswer (readyEnv (constantProvider objectThenBraces)) jsonParse "4".toList
        "2 + 2".toList none = .ok neutralVerdict ∧
    RE.exec bracePattern objectThenBraces =
      some ("\x7b\"isCorrect\": true, \"feedback\": \"ok\", \"confidence\": 0.9\x7d " ++
            "I hope \x7bthis\x7d").toList :=
  ⟨by rfl, by rfl⟩

set_option maxRecDepth 20000 in
theorem objectInText_verdict :
    validateAnswer (readyEnv (constantProvider objectInText)) jsonParse "4".toList
        "2 + 2".toList none =
      .ok { isCorrect := .bool true, feedback := .str "ok".toList, confidence := .num ⟨9, -1⟩ } :=
  by rfl

/-- C23, as stated, fails: for a text with a complete object followed by
text with further braces, the first balanced span is that object and it
parses, yet `validateAnswer` returns the neutral verdict, not the verdict of
the object: the text it tries to parse runs to the last closing brace. -/
theorem validateAnswer_span_counterexample :
    jsonParse objectThenBraces = none ∧
    firstBalancedSpan objectThenBraces = some completeObject ∧
    jsonParse completeObject =
      some (.obj [("isCorrect".toList, .bool true), ("feedback".toList, .str "ok".toList),
                  ("confidence".toList, .num ⟨9, -1⟩)]) ∧
    (verdictFrom (.obj [("isCorrect".toList, .bool true), ("feedback".toList, .str "ok".toList),
                        ("confidence".toList, .num ⟨9, -1⟩)])).isCorrect = .bool true ∧
    validateAnswer (readyEnv (constantProvider objectThenBraces)) jsonParse "4".toList
        "2 + 2".toList none = .ok neutralVerdict ∧
    neutralVerdict.isCorrect = .bool false ∧
    RE.exec bracePattern objectThenBraces =
      some ("\x7b\"isCorrect\": true, \"feedback\": \"ok\", \"confidence\": 0.9\x7d " ++
            "I hope \x7bthis\x7d").toList :=
  ⟨by rfl, by rfl, by rfl, by rfl, objectThenBraces_facts.1, by rfl, objectThenBraces_facts.2⟩

/-- C23, amended: for a text that is not valid JSON and holds an opening
brace with a closing brace after it, `validateAnswer` parses the part of the
text from its first opening brace to its last closing brace; it builds its
verdict from that value, and returns the neutral verdict when that part does
not parse, as when further braces follow a complete object. -/
theorem validateAnswer_span (env : Env) (parse : JSString → Option JSValue)
    (studentAnswer problem : JSString) (expectedAnswer : Option JSString) (openai : Provider)
    (pre mid post : JSString)
    (hc : getOpenAIClient env = .ok openai)
    (hr : openai (validationRequest studentAnswer problem expectedAnswer) =
      .ok (pre ++ Char.ofNat 123 :: (mid ++ Char.ofNat 125 :: post)))
    (hwhole : parse (pre ++ Char.ofNat 123 :: (mid ++ Char.ofNat 125 :: post)) = none)
    (hpre : Char.ofNat 123 ∉ pre) (hpost : Char.ofNat 125 ∉ post) :
    validateAnswer env parse studentAnswer problem expectedAnswer =
      .ok (match parse (Char.ofNat 123 :: (mid ++ [Char.ofNat 125])) with
           | some result => verdictFrom result
           | none => neutralVerdict) := by
  rw [validateAnswer_eq env parse studentAnswer problem expectedAnswer openai hc, hr]
  simp only [parseResponse, hwhole, exec_bracePattern_greedy pre mid post hpre hpost]
  cases parse (Char.ofNat 123 :: (mid ++ [Char.ofNat 125])) with
  | none => rfl
  | some result => rfl

theorem validateAnswer_span_witness :
    validateAnswer (readyEnv (constantProvider objectInText)) jsonParse "4".toList
        "2 + 2".toList none =
      .ok (match jsonParse (Char.ofNat 123 ::
              ("\"isCorrect\": true, \"feedback\": \"ok\", \"confidence\": 0.9".toList ++
                [Char.ofNat 125])) with
           | some result => verdictFrom result
           | none => neutralVerdict) ∧
    validateAnswer (readyEnv (constantProvider objectInText)) jsonParse "4".toList
        "2 + 2".toList none =
      .ok { isCorrect := .bool true, feedback := .str "ok".toList, confidence := .num ⟨9, -1⟩ } :=
  ⟨validateAnswer_span (readyEnv (constantProvider objectInText)) jsonParse "4".toList
     "2 + 2".toList none (constantProvider objectInText) "Sure: ".toList
     "\"isCorrect\": true, \"feedback\": \"ok\", \"confidence\": 0.9".toList
     " Good luck.".toList rfl (by rfl) (by rfl) (by decide) (by decide),
   objectInText_verdict⟩

theorem buildVerdict_confidence (result : JSValue) (verdict : Verdict)
    (h : buildVerdict result = .ok verdict) :
    ∃ field, getField result "confidence".toList = .ok field ∧
      verdict.confidence = jsOrValue field (.num ⟨5, -1⟩) := by
  cases result with
  | null =>
    simp only [buildVerdict, getField] at h
    cases h
  | bool b =>
    simp only [buildVerdict, getField, Except.ok.injEq] at h
    exact ⟨_, rfl, by rw [← h]⟩
  | num x =>
    simp only [buildVerdict, getField, Except.ok.injEq] at h
    exact ⟨_, rfl, by rw [← h]⟩
  | str t =>
    simp only [buildVerdict, getField, Except.ok.injEq] at h
    exact ⟨_, rfl, by rw [← h]⟩
  | arr items =>
    simp only [buildVerdict, getField, Except.ok.injEq] at h
    exact ⟨_, rfl, by rw [← h]⟩
  | obj fields =>
    simp only [buildVerdict, getField, Except.ok.injEq] at h
    exact ⟨_, rfl, by rw [← h]⟩

theorem jsOrValue_cases (field : Option JSValue) (d : JSValue) :
    jsOrValue field d = d ∨
      ∃ c, field = some c ∧ truthyValue (some c) = true ∧ jsOrValue field d = c := by
  cases field with
  | none => exact Or.inl rfl
  | some c =>
    by_cases h : truthyValue (some c) = true
    · exact Or.inr ⟨c, rfl, h, by simp [jsOrValue, h]⟩
    · exact Or.inl (by simp [jsOrValue, h])

set_option maxRecDepth 20000 in
theorem confidenceFive_verdict :
    validateAnswer (readyEnv (constantProvider confidenceFive)) jsonParse "4".toList
        "2 + 2".toList none =
      .ok { isCorrect := .bool true, feedback := .str "ok".toList, confidence := .num ⟨5, 0⟩ } :=
  by rfl

/-- C24, as stated, fails: when the provider answers with the confidence 5,
the verdict has the confidence 5, which is outside the interval from 0 to 1. -/
theorem validateAnswer_confidence_counterexample :
    validateAnswer (readyEnv (constantProvider confidenceFive)) jsonParse "4".toList
        "2 + 2".toList none =
      .ok { isCorrect := .bool true, feedback := .str "ok".toList, confidence := .num ⟨5, 0⟩ } ∧
    ¬ inUnitInterval (.num ⟨5, 0⟩) :=
  ⟨confidenceFive_verdict, by simp [inUnitInterval]⟩

/-- C24, amended: the confidence of a verdict returned by `validateAnswer`
is 0 (the neutral verdict), or 0.5 (the default for a missing or falsy
confidence), or the truthy value of the field `confidence` of the parsed
response, copied as it is without a check of its range; 0 and 0.5 lie in the
interval from 0 to 1. -/
theorem validateAnswer_confidence (env : Env) (parse : JSString → Option JSValue)
    (studentAnswer problem : JSString) (expectedAnswer : Option JSString) (verdict : Verdict)
    (h : validateAnswer env parse studentAnswer problem expectedAnswer = .ok verdict) :
    (verdict.confidence = .num ⟨0, 0⟩ ∨ verdict.confidence = .num ⟨5, -1⟩ ∨
      ∃ openai content result c,
        getOpenAIClient env = .ok openai ∧
        openai (validationRequest studentAnswer problem expectedAnswer) = .ok content ∧
        parseResponse parse content = .ok result ∧
        getField result "confidence".toList = .ok (some c) ∧
        truthyValue (some c) = true ∧ verdict.confidence = c) ∧
    inUnitInterval (.num ⟨0, 0⟩) ∧ inUnitInterval (.num ⟨5, -1⟩) := by
  refine ⟨?_, by simp [inUnitInterval], by simp [inUnitInterval]⟩
  cases hc : getOpenAIClient env with
  | error e =>
    unfold validateAnswer at h
    simp [hc] at h
  | ok openai =>
    rw [validateAnswer_eq env parse studentAnswer problem expectedAnswer openai hc] at h
    simp only [Except.ok.injEq] at h
    cases hr : openai (validationRequest studentAnswer problem expectedAnswer) with
    | error e =>
      rw [hr] at h
      exact Or.inl (by rw [← h]; rfl)
    | ok content =>
      rw [hr] at h
      simp only at h
      cases hp : parseResponse parse content with
      | error e =>
        rw [hp] at h
        exact Or.inl (by rw [← h]; rfl)
      | ok result =>
        rw [hp] at h
        simp only [verdictFrom] at h
        cases hb : buildVerdict result with
        | error e =>
          rw [hb] at h
          exact Or.inl (by rw [← h]; rfl)
        | ok built =>
          rw [hb] at h
          simp only at h
          subst h
          obtain ⟨field, hfield, hconf⟩ := buildVerdict_confidence result built hb
          rcases jsOrValue_cases field (.num ⟨5, -1⟩) with hd | ⟨c, hsome, htruthy, hcopy⟩
          · exact Or.inr (Or.inl (by rw [hconf, hd]))
          · subst hsome
            exact Or.inr (Or.inr ⟨openai, content, result, c, rfl, hr, hp, hfield, htruthy,
              by rw [hconf, hcopy]⟩)

theorem validateAnswer_confidence_witness :
    ((Verdict.mk (.bool true) (.str "ok".toList) (.num ⟨5, 0⟩)).confidence = .num ⟨0, 0⟩ ∨
      (Verdict.mk (.bool true) (.str "ok".toList) (.num ⟨5, 0⟩)).confidence = .num ⟨5, -1⟩ ∨
      ∃ openai content result c,
        getOpenAIClient (readyEnv (constantProvider confidenceFive)) = .ok openai ∧
        openai (validationRequest "4".toList "2 + 2".toList none) = .ok content ∧
        parseResponse jsonParse content = .ok result ∧
        getField result "confidence".toList = .ok (some c) ∧
        truthyValue (some c) = true ∧
        (Verdict.mk (.bool true) (.str "ok".toList) (.num ⟨5, 0⟩)).confidence = c) ∧
    inUnitInterval (.num ⟨0, 0⟩) ∧ inUnitInterval (.num ⟨5, -1⟩) :=
  validateAnswer_confidence (readyEnv (constantProvider confidenceFive)) jsonParse "4".toList
    "2 + 2".toList none _ confidenceFive_verdict

/-! ## The defaults of the verdict -/

set_option maxRecDepth 20000 in
theorem falsyFields_parse :
    parseResponse jsonParse falsyFields =
      .ok (.obj [("isCorrect".toList, .bool true), ("feedback".toList, .str []),
                 ("confidence".toList, .num ⟨0, 0⟩)]) :=
  by rfl

/-- C28: when the response parses to an object, each field of the verdict is
the field of that object when it is truthy and its default otherwise: false
for `isCorrect`, "Answer received." for `feedback`, 0.5 for `confidence`.
A missing field, null, false, the empty string and a number 0 are falsy. -/
theorem validateAnswer_defaults (env : Env) (parse : JSString → Option JSValue)
    (studentAnswer problem : JSString) (expectedAnswer : Option JSString) (openai : Provider)
    (content : JSString) (fields : List (JSString × JSValue))
    (hc : getOpenAIClient env = .ok openai)
    (hr : openai (validationRequest studentAnswer problem expectedAnswer) = .ok content)
    (hp : parseResponse parse content = .ok (.obj fields)) :
    validateAnswer env parse studentAnswer problem expectedAnswer =
      .ok { isCorrect := jsOrValue (lookupField fields "isCorrect".toList) (.bool false)
            feedback := jsOrValue (lookupField fields "feedback".toList)
              (.str "Answer received.".toList)
            confidence := jsOrValue (lookupField fields "confidence".toList) (.num ⟨5, -1⟩) } ∧
    (∀ (field : Option JSValue) (d : JSValue),
      jsOrValue field d =
        match field with
        | some x => if truthyValue (some x) then x else d
        | none => d) ∧
    truthyValue none = false ∧ truthyValue (some .null) = false ∧
    truthyValue (some (.bool false)) = false ∧ truthyValue (some (.str [])) = false ∧
    (∀ e : Int, truthyValue (some (.num ⟨0, e⟩)) = false) ∧
    truthyValue (some (.bool true)) = true ∧
    (∀ (c : Char) (s : JSString), truthyValue (some (.str (c :: s))) = true) ∧
    (∀ x : JSNumber, truthyValue (some (.num x)) = (x.mantissa != 0)) := by
  refine ⟨?_, ?_, rfl, rfl, rfl, rfl, fun _ => rfl, rfl, fun _ _ => rfl, fun _ => rfl⟩
  · rw [validateAnswer_eq env parse studentAnswer problem expectedAnswer openai hc, hr]
    simp only [hp]
    rfl
  · intro field d
    cases field <;> rfl

theorem validateAnswer_defaults_witness :
    validateAnswer (readyEnv (constantProvider falsyFields)) jsonParse "4".toList
        "2 + 2".toList none =
      .ok { isCorrect := .bool true
            feedback := .str "Answer received.".toList
            confidence := .num ⟨5, -1⟩ } :=
  (validateAnswer_defaults (readyEnv (constantProvider falsyFields)) jsonParse "4".toList
    "2 + 2".toList none (constantProvider falsyFields) falsyFields
    [("isCorrect".toList, .bool true), ("feedback".toList, .str []),
     ("confidence".toList, .num ⟨0, 0⟩)] rfl rfl falsyFields_parse).1

end Tutor
